import Mathlib

/-!
Verification development for the session-manager core of the repository
(`src/servers/session_manager_server.py`, class `SessionStateManager` and
class `SessionRecommendationEngine`).

The embedding is a shallow one: the sqlite tables become lists of rows, the
`active_sessions` dict becomes an association list, and each `async def`
method becomes a function `... → State × Except Err Ret` that mirrors the
source statement by statement, including the partial mutations that are left
behind when an exception is raised half-way through a method.

Two dynamic-typing effects of the source are modelled explicitly, because
they are observable through the public operations:

* `json.dumps(session_state, default=str)` in `create_snapshot` turns the
  `snapshots` deque and the `start_time` datetime into plain strings in the
  stored blob (verified against CPython: `default` is applied to any
  non-serialisable object).  `restore_snapshot` writes those strings back
  into the live session dict with `dict.update`, after which
  `self.active_sessions[sid]['snapshots'].append(...)` raises
  `AttributeError` and `datetime.now() - session_data['start_time']` raises
  `TypeError`.  The fields `SessionMem.start_time : TimeVal` and
  `SessionMem.snapshots : SnapsVal` are therefore sums of the structured and
  the stringified form.

* `start_bug_fix_context` stores in `bug_context['pre_fix_state']` a shallow
  copy of the session dict, whose `'bug_fixes'` entry is the very list the
  context itself is then appended to.  This creates a reference cycle, so
  every later `json.dumps` of the session dict raises
  `ValueError: Circular reference detected` (also verified against CPython;
  `check_circular` is on by default and `default=` does not break cycles).
  A bug-fix entry records in `BugEntry.isLive` whether it was appended by
  `start_bug_fix_context` (aliasing the live list) or came from a restored
  snapshot blob (plain acyclic JSON data); serialisation of a session whose
  bug list contains a live entry fails with `Err.circularRef`.

Machine integers do not occur; times are natural-number epoch seconds (the
source truncates `datetime.now().timestamp()` to `int` seconds wherever a
time enters an identifier) and the float metrics are modelled as exact
fractions (`Frac`), which is faithful for the claims proved here (they
concern which value is computed, not binary rounding).
-/

namespace SessionMgr

/-- Caller-supplied context documents and overlay documents: flat ordered
string-to-string maps (`dict` in the source). -/
abbrev Doc := List (String × String)

/-- Lookup of a key in a document (first occurrence, like `dict[k]` for the
association lists we build, which never carry duplicate keys). -/
def docGet (d : Doc) (k : String) : Option String :=
  (d.find? (fun p => p.1 == k)).map (fun p => p.2)

/-- Python `dict.update`: existing keys keep their position and take the new
value, fresh keys are appended in the order of the update document. -/
def docUpdate (base upd : Doc) : Doc :=
  base.map (fun p => match docGet upd p.1 with
    | some v => (p.1, v)
    | none => p) ++
  upd.filter (fun p => !(base.any (fun q => q.1 == p.1)))

/-- Stand-in for `hashlib.md5(s.encode()).hexdigest()[:12]`: a deterministic
twelve-hex-character digest of the input string.  The md5 internals are not
modelled; every property proved below depends only on the digest being a
deterministic function of the input string and having fixed width. -/
def md5hex12 (s : String) : String :=
  let n := s.data.foldl (fun a c => (a * 131 + c.toNat) % (16 ^ 12)) 7
  let hex := Nat.toDigits 16 n
  let padded := List.replicate (12 - hex.length) '0' ++ hex
  String.mk (padded.take 12)

/-- Python slice `s[:n]`. -/
def strTake (s : String) (n : Nat) : String := String.mk (s.data.take n)

/-- Exact fraction, always held in normalised form (positive denominator,
coprime).  The source computes its metrics and scores with Python floats;
every float expression involved is a composition of field operations and
comparisons on exactly-representable inputs, and the claims below concern
which value is computed, not binary rounding, so exact fractions are the
faithful reading. -/
structure Frac where
  num : Int
  den : Nat
deriving DecidableEq

/-- Normalised fraction `n / d` (callers never pass `d = 0`; the source
guards every division). -/
def Frac.norm (n : Int) (d : Nat) : Frac :=
  if d = 0 then ⟨0, 1⟩
  else
    let g := Nat.gcd n.natAbs d
    ⟨n / (g : Int), d / g⟩

def Frac.ofNat (n : Nat) : Frac := ⟨n, 1⟩

def Frac.ofInt (n : Int) : Frac := ⟨n, 1⟩

/-- Literal fraction `n / d`. -/
def frac (n : Int) (d : Nat) : Frac := Frac.norm n d

def Frac.add (a b : Frac) : Frac :=
  Frac.norm (a.num * b.den + b.num * a.den) (a.den * b.den)

def Frac.sub (a b : Frac) : Frac :=
  Frac.norm (a.num * b.den - b.num * a.den) (a.den * b.den)

def Frac.mul (a b : Frac) : Frac :=
  Frac.norm (a.num * b.num) (a.den * b.den)

def Frac.div (a b : Frac) : Frac :=
  if b.num = 0 then ⟨0, 1⟩
  else if b.num < 0 then Frac.norm (-(a.num * b.den)) (a.den * b.num.natAbs)
  else Frac.norm (a.num * b.den) (a.den * b.num.natAbs)

def Frac.ble (a b : Frac) : Bool :=
  decide (a.num * (b.den : Int) ≤ b.num * (a.den : Int))

def Frac.blt (a b : Frac) : Bool :=
  decide (a.num * (b.den : Int) < b.num * (a.den : Int))

def Frac.min (a b : Frac) : Frac := if Frac.ble a b then a else b

def Frac.max (a b : Frac) : Frac := if Frac.ble a b then b else a

/-- Python float floor (`//` rounds toward negative infinity). -/
def Frac.floor (a : Frac) : Int := Int.fdiv a.num a.den

/-- `_generate_session_id`: `"sess_" + md5(f"{project_id}_{technology}_{timestamp}")[:12]`
where `timestamp = str(int(datetime.now().timestamp()))`, i.e. the clock
truncated to whole seconds. -/
def generate_session_id (project_id technology : String) (now : Nat) : String :=
  "sess_" ++ md5hex12 (project_id ++ "_" ++ technology ++ "_" ++ toString now)

/-- Stand-in for `str(datetime)` on a whole-second timestamp (injective on
seconds; only equality and string-ness of the result are observable). -/
def timeRepr (t : Nat) : String := "ts:" ++ toString t

/-- Entry of the in-memory snapshot deque: the dict appended in
`create_snapshot` (`snapshot_id`, `timestamp`, `type`, `description`).
Snapshot identifiers `f"snap_{session_id}_{ts}"` are modelled as the pair
(session id, whole-second timestamp); the string encoding is injective
because generated session ids have fixed width `sess_` + 12 hex chars. -/
structure SnapRef where
  snap_sid : String
  snap_ts : Nat
  rtype : String
  rdesc : String
deriving DecidableEq

/-- The `'snapshots'` slot of the session dict: a deque of refs until a
restore overwrites it with the stringified form from the blob. -/
inductive SnapsVal
  | ring (xs : List SnapRef)
  | str (s : String)
deriving DecidableEq

/-- The `'start_time'` slot: a datetime until a restore overwrites it with
the stringified form from the blob. -/
inductive TimeVal
  | dt (t : Nat)
  | str (s : String)
deriving DecidableEq

/-- Serialised form of a bug-fix context inside a snapshot blob (plain JSON
data; the keys of the bug dict that no operation ever reads back, such as
`fix_attempts` and `pre_fix_state`, are not tracked). -/
structure StoredBug where
  context_id : String
  bug_description : String
  status : String
  resolution_time : Option String
deriving DecidableEq

/-- An element of the in-memory `session['bug_fixes']` list.  `isLive` is
true for entries appended by `start_bug_fix_context`, whose
`pre_fix_state['bug_fixes']` aliases the containing list (reference cycle);
it is false for entries written by a snapshot restore, which are plain
deserialised dicts. -/
structure BugEntry where
  context_id : String
  bug_description : String
  status : String
  resolution_time : Option String
  isLive : Bool
deriving DecidableEq

/-- Serialised session dict as stored (compressed) in a snapshot blob.
`zlib` compression is lossless and is modelled as the identity encoding; a
blob written by `create_snapshot` always decompresses and deserialises. -/
structure StoredDoc where
  project_id : String
  technology : String
  session_type : String
  start_time_s : String
  context : Doc
  snapshots_s : String
  bug_fixes : List StoredBug
  extras : Doc
deriving DecidableEq, Inhabited

/-- In-memory value of `self.active_sessions[session_id]`.  The
`activity_log` entry is created as `[]` and never read or written afterwards
anywhere in the source, so it is not tracked.  `extras` holds top-level keys
merged in by a snapshot restore; the overlay documents passed by the
registered tools are disjoint from the structural keys. -/
structure SessionMem where
  project_id : String
  technology : String
  session_type : String
  start_time : TimeVal
  context : Doc
  snapshots : SnapsVal
  bug_fixes : List BugEntry
  extras : Doc
deriving DecidableEq

/-- Stand-in for `str(deque([...]))`; only equality and the character count
of the result are observable. -/
def deqRepr (xs : List SnapRef) : String :=
  "deque:" ++ toString xs.length

def timeValStr : TimeVal → String
  | .dt t => timeRepr t
  | .str s => s

def snapsValStr : SnapsVal → String
  | .ring xs => deqRepr xs
  | .str s => s

/-- Whether the session dict contains a reference cycle through its bug-fix
list (see the header comment): true exactly when some entry was appended
live by `start_bug_fix_context`. -/
def hasLive (l : List BugEntry) : Bool :=
  l.any (fun e => e.isLive)

def toStored (e : BugEntry) : StoredBug :=
  { context_id := e.context_id
    bug_description := e.bug_description
    status := e.status
    resolution_time := e.resolution_time }

/-- Exceptions that escape the state-manager methods, as the calling layer
can distinguish them.  `notFound` stands for the
`raise ValueError(f"... not found")` sites (the `NotFound` kind of the
specification); `integrityError` for a sqlite PRIMARY KEY violation;
`circularRef` for `ValueError: Circular reference detected` from
`json.dumps`; `attributeError` for `'str' object has no attribute 'append'`;
`typeError` for `unsupported operand type(s) for -: 'datetime' and 'str'`. -/
inductive Err
  | notFound (what : String)
  | integrityError
  | circularRef
  | attributeError
  | typeError
deriving DecidableEq

/-- `json.dumps(session_state | overlay, default=str)` followed by
`zlib.compress`: fails iff the dict is cyclic (live bug-fix entry present);
otherwise produces the stored document, with the deque and the datetime
stringified and the overlay merged on top (overlay keys of the call sites
are disjoint from the structural keys and land in `extras`). -/
def serSession (m : SessionMem) (overlay : Doc) : Except Err StoredDoc :=
  if hasLive m.bug_fixes then .error .circularRef
  else .ok
    { project_id := m.project_id
      technology := m.technology
      session_type := m.session_type
      start_time_s := timeValStr m.start_time
      context := m.context
      snapshots_s := snapsValStr m.snapshots
      bug_fixes := m.bug_fixes.map toStored
      extras := docUpdate m.extras overlay }

/-- `dict.update(restored_state)` in `restore_snapshot`: every structural
key of the session dict is replaced by the deserialised (stringified) form
from the blob; restored bug entries are plain dicts, not live ones. -/
def applyRestored (m : SessionMem) (d : StoredDoc) : SessionMem :=
  { project_id := d.project_id
    technology := d.technology
    session_type := d.session_type
    start_time := .str d.start_time_s
    context := d.context
    snapshots := .str d.snapshots_s
    bug_fixes := d.bug_fixes.map (fun b =>
      { context_id := b.context_id
        bug_description := b.bug_description
        status := b.status
        resolution_time := b.resolution_time
        isLive := false })
    extras := docUpdate m.extras d.extras }

/-- Row of the `sessions` table.  `context_data` holds either the creation
payload (`json.dumps(context_data or {})`) or, after `end_session`, the dump
of the whole session dict. -/
inductive CtxData
  | doc (d : Doc)
  | dump (d : StoredDoc)
deriving DecidableEq

structure SessionRow where
  session_id : String
  project_id : String
  technology : String
  session_type : String
  start_time : Nat
  end_time : Option Nat
  status : String
  context_data : CtxData
deriving DecidableEq

/-- Row of the `session_snapshots` table.  The primary key
`f"snap_{session_id}_{ts}"` is modelled as the pair (`session_id`, `ts`);
the `snapshot_time` column (`CURRENT_TIMESTAMP` at insert) always equals the
second `ts` baked into the key, so one field serves both. -/
structure SnapshotRow where
  session_id : String
  ts : Nat
  stype : String
  blob : StoredDoc
  description : String
deriving DecidableEq

/-- One element of the deserialised `fix_attempts` list of a bug-fix row. -/
structure Attempt where
  ts : Nat
  description : String
  code_changes : Doc
  outcome : String
deriving DecidableEq

/-- Value written into the `solution_state` column by
`resolve_bug_fix_context`: `json.dumps(None)` when the context id was not
found in any active session, the serialised session dict otherwise. -/
inductive SolVal
  | nullSol
  | docSol (d : StoredDoc)
deriving DecidableEq

/-- Row of the `bug_fix_contexts` table. -/
structure BugRow where
  context_id : String
  session_id : String
  bug_description : String
  pre_fix_state : StoredDoc
  fix_attempts : List Attempt
  solution_state : Option SolVal
  lessons_learned : Option (List String)
  created_at : Nat
  resolved_at : Option Nat
deriving DecidableEq, Inhabited

/-- Row of the `session_continuity` table (the bridge payload is built from
the previous context document but never read back by any operation, so only
the identity columns are tracked). -/
structure BridgeRow where
  new_session_id : String
  previous_session_id : String
deriving DecidableEq

/-- Row of the `session_analytics` table. -/
structure AnalyticsRow where
  session_id : String
  metric_type : String
  metric_value : Frac
deriving DecidableEq

/-- Whole program state: the five sqlite tables plus the in-memory
`active_sessions` dict (an insertion-ordered association list). -/
structure State where
  sessions : List SessionRow
  snapshots : List SnapshotRow
  bug_rows : List BugRow
  bridges : List BridgeRow
  analytics : List AnalyticsRow
  active : List (String × SessionMem)
deriving DecidableEq

/-- Fresh state: empty database, no active sessions. -/
def initState : State :=
  { sessions := [], snapshots := [], bug_rows := [], bridges := [],
    analytics := [], active := [] }

def lookupActive (s : State) (sid : String) : Option SessionMem :=
  (s.active.find? (fun p => p.1 == sid)).map (fun p => p.2)

/-- Python dict assignment `active_sessions[sid] = mem`: replaces an
existing key in place, appends a fresh key. -/
def dictSet (l : List (String × SessionMem)) (k : String) (v : SessionMem) :
    List (String × SessionMem) :=
  if l.any (fun p => p.1 == k) then
    l.map (fun p => if p.1 == k then (k, v) else p)
  else l ++ [(k, v)]

def setActive (s : State) (sid : String) (m : SessionMem) : State :=
  { s with active := s.active.map (fun p => if p.1 == sid then (sid, m) else p) }

def removeActive (s : State) (sid : String) : State :=
  { s with active := s.active.filter (fun p => !(p.1 == sid)) }

def sessionExists (s : State) (sid : String) : Bool :=
  s.sessions.any (fun r => r.session_id == sid)

def snapExists (s : State) (sid : String) (ts : Nat) : Bool :=
  s.snapshots.any (fun r => r.session_id == sid && r.ts == ts)

/-- Return values of the state-manager methods. -/
structure Metrics where
  duration_hours : Frac
  snapshots_created : Nat
  bug_fixes_attempted : Nat
  bug_fixes_resolved : Nat
  productivity_score : Frac
  bug_fix_success_rate : Frac
deriving DecidableEq

structure EndResult where
  session_id : String
  duration_seconds : Frac
  metrics : Metrics
  summary : String
deriving DecidableEq

inductive Ret
  | runit
  | rid (id : String)
  | rdoc (d : StoredDoc)
  | rend (r : EndResult)
deriving DecidableEq

instance : DecidableEq (Except Err Ret) := fun a b =>
  match a, b with
  | .ok x, .ok y =>
    match decEq x y with
    | isTrue h => isTrue (by rw [h])
    | isFalse h => isFalse (fun hc => h (by cases hc; rfl))
  | .error x, .error y =>
    match decEq x y with
    | isTrue h => isTrue (by rw [h])
    | isFalse h => isFalse (fun hc => h (by cases hc; rfl))
  | .ok _, .error _ => isFalse (fun hc => by cases hc)
  | .error _, .ok _ => isFalse (fun hc => by cases hc)

/-- `len(session_data.get('snapshots', []))`: list length for the deque,
character count once a restore has turned the slot into a string. -/
def snapsLen : SnapsVal → Nat
  | .ring xs => xs.length
  | .str s => s.length

def bugResolvedCount (l : List BugEntry) : Nat :=
  (l.filter (fun e => e.status == "resolved")).length

/-- `_calculate_productivity_score`. -/
def calculate_productivity_score (m : SessionMem) (duration_hours : Frac) : Frac :=
  if duration_hours = Frac.ofNat 0 then Frac.ofNat 0
  else
    let snapshots_per_hour := (Frac.ofNat (snapsLen m.snapshots)).div duration_hours
    let bug_fix_efficiency :=
      if m.bug_fixes.length > 0 then
        (Frac.ofNat (bugResolvedCount m.bug_fixes)).div
          (Frac.ofNat m.bug_fixes.length)
      else Frac.ofNat 1
    let snapshot_score := (Frac.ofNat 1).min (snapshots_per_hour.div (Frac.ofNat 2))
    (Frac.ofNat 1).min ((Frac.ofNat 0).max
      ((snapshot_score.mul (frac 6 10)).add (bug_fix_efficiency.mul (frac 4 10))))

/-- `_calculate_session_metrics`.  The very first use of
`session_data['start_time']` subtracts it from `datetime.now()`, which
raises `TypeError` when a restore has replaced the datetime by a string. -/
def calculate_session_metrics (now : Nat) (m : SessionMem) : Except Err Metrics :=
  match m.start_time with
  | .str _ => .error .typeError
  | .dt st =>
    let d := frac ((now : Int) - (st : Int)) 3600
    let attempted := m.bug_fixes.length
    .ok { duration_hours := d
          snapshots_created := snapsLen m.snapshots
          bug_fixes_attempted := attempted
          bug_fixes_resolved := bugResolvedCount m.bug_fixes
          productivity_score := calculate_productivity_score m d
          bug_fix_success_rate :=
            if attempted > 0 then
              (Frac.ofNat (bugResolvedCount m.bug_fixes)).div (Frac.ofNat attempted)
            else Frac.ofNat 1 }

/-- Database row written by `create_snapshot`. -/
def snapRowOf (sid : String) (now : Nat) (ty dsc : String)
    (blob : StoredDoc) : SnapshotRow where
  session_id := sid
  ts := now
  stype := ty
  blob := blob
  description := dsc

/-- Deque entry appended by `create_snapshot`. -/
def snapRefOf (sid : String) (now : Nat) (ty dsc : String) : SnapRef where
  snap_sid := sid
  snap_ts := now
  rtype := ty
  rdesc := dsc

/-- `deque(maxlen=50).append`: drop the oldest entry once full. -/
def ringPush (xs : List SnapRef) (r : SnapRef) : List SnapRef :=
  if xs.length < 50 then xs ++ [r] else xs.tail ++ [r]

/-- `create_snapshot`, statement by statement: active check (raises the
not-found `ValueError`), `json.dumps` (raises on the bug-list cycle), the
`INSERT` (primary-key violation when a snapshot of the same session was
already taken in the same second), then the in-memory deque append (raises
`AttributeError` when a restore has turned the slot into a string — note the
database row is already written at that point). -/
def create_snapshot (s : State) (sid stype desc : String) (overlay : Doc)
    (now : Nat) : State × Except Err Ret :=
  match lookupActive s sid with
  | none => (s, .error (.notFound "session"))
  | some m =>
    match serSession m overlay with
    | .error e => (s, .error e)
    | .ok blob =>
      if snapExists s sid now then (s, .error .integrityError)
      else
        let s1 : State := { s with snapshots := s.snapshots ++
          [snapRowOf sid now stype desc blob] }
        match m.snapshots with
        | .str _ => (s1, .error .attributeError)
        | .ring xs =>
          (setActive s1 sid { m with
              snapshots := .ring (ringPush xs (snapRefOf sid now stype desc)) },
           .ok (.rid ("snap_" ++ sid ++ "_" ++ toString now)))

/-- Session row inserted by `create_session`. -/
def newRow (pid tech stype : String) (ctx : Doc) (now : Nat) : SessionRow where
  session_id := generate_session_id pid tech now
  project_id := pid
  technology := tech
  session_type := stype
  start_time := now
  end_time := none
  status := "active"
  context_data := .doc ctx

/-- In-memory state initialised by `create_session`, before the initial
snapshot. -/
def newMem (pid tech stype : String) (ctx : Doc) (now : Nat) : SessionMem where
  project_id := pid
  technology := tech
  session_type := stype
  start_time := .dt now
  context := ctx
  snapshots := .ring []
  bug_fixes := []
  extras := []

/-- Truthiness of the parsed previous context in `_create_session_bridge`
(`if previous_context:`): the stored TEXT column is always a nonempty JSON
string, so the check reduces to the parsed dict being nonempty. -/
def ctxNonempty : CtxData → Bool
  | .doc d => !d.isEmpty
  | .dump _ => true

/-- `_create_session_bridge`, reduced to its one observable effect: the
bridge row is inserted iff a previous session id was supplied, its row is
found, and its stored context document parses to a nonempty dict
(`if previous_context:`); the bridge payload itself is never read back. -/
def bridgeRows (s1 : State) (sid : String)
    (previous_session_id : Option String) : List BridgeRow :=
  match previous_session_id with
  | none => s1.bridges
  | some p =>
    match s1.sessions.find? (fun r => r.session_id == p) with
    | some prow =>
      if ctxNonempty prow.context_data then
        s1.bridges ++ [{ new_session_id := sid, previous_session_id := p }]
      else s1.bridges
    | none => s1.bridges

/-- `create_session`.  There is no validation of `project_id` or
`technology`; the only failure points are the primary-key violation on a
same-second duplicate id and whatever `create_snapshot` raises for the
initial snapshot. -/
def create_session (s : State) (project_id technology session_type : String)
    (previous_session_id : Option String) (context_data : Doc) (now : Nat) :
    State × Except Err Ret :=
  let sid := generate_session_id project_id technology now
  if sessionExists s sid then (s, .error .integrityError)
  else
    let s1 : State := { s with sessions := s.sessions ++
      [newRow project_id technology session_type context_data now] }
    let s2 : State := { s1 with
      bridges := bridgeRows s1 sid previous_session_id }
    let s3 := { s2 with
      active := dictSet s2.active sid
        (newMem project_id technology session_type context_data now) }
    let res := create_snapshot s3 sid "initial" "Session started" [] now
    (res.1, match res.2 with
            | .ok _ => .ok (.rid sid)
            | .error e => .error e)

def mkContextId (sid : String) (now : Nat) : String :=
  "bugfix_" ++ sid ++ "_" ++ toString now

/-- `start_bug_fix_context`: serialises the pre-fix copy (this is where a
second live context in the same session hits the cycle of the first one),
inserts the row, appends the live entry to the in-memory list (creating the
cycle), then attempts the `pre_bug_fix` snapshot — whose `json.dumps` now
always hits the cycle, so the snapshot is never written and the method
raises after having persisted the context. -/
def start_bug_fix_context (s : State) (sid bug_description : String)
    (overlay : Doc) (now : Nat) : State × Except Err Ret :=
  match lookupActive s sid with
  | none => (s, .error (.notFound "session"))
  | some m =>
    let cid := mkContextId sid now
    match serSession m overlay with
    | .error e => (s, .error e)
    | .ok blob =>
      if s.bug_rows.any (fun r => r.context_id == cid) then
        (s, .error .integrityError)
      else
        let s1 := { s with bug_rows := s.bug_rows ++
          [{ context_id := cid, session_id := sid,
             bug_description := bug_description, pre_fix_state := blob,
             fix_attempts := [], solution_state := none,
             lessons_learned := none, created_at := now,
             resolved_at := none }] }
        let m1 := { m with bug_fixes := m.bug_fixes ++
          [{ context_id := cid, bug_description := bug_description,
             status := "active", resolution_time := none, isLive := true }] }
        let s2 := setActive s1 sid m1
        let res := create_snapshot s2 sid "pre_bug_fix"
          ("Before fixing: " ++ strTake bug_description 50 ++ "...") [] now
        (res.1, match res.2 with
                | .ok _ => .ok (.rid cid)
                | .error e => .error e)

/-- `log_bug_fix_attempt`: a missing context id is a silent no-op (the
`if result:` guard simply skips the update and the method returns
normally). -/
def log_bug_fix_attempt (s : State) (cid attempt_description : String)
    (code_changes : Doc) (outcome : String) (now : Nat) :
    State × Except Err Ret :=
  match s.bug_rows.find? (fun r => r.context_id == cid) with
  | none => (s, .ok .runit)
  | some row =>
    let att : Attempt :=
      { ts := now, description := attempt_description,
        code_changes := code_changes, outcome := outcome }
    ({ s with bug_rows := s.bug_rows.map (fun r =>
        if r.context_id == cid then
          { r with fix_attempts := row.fix_attempts ++ [att] }
        else r) },
     .ok .runit)

/-- The inner loop of `resolve_bug_fix_context` over one session: flip the
first entry with the given context id (the `break` leaves the rest of the
list untouched). -/
def flipFirst (l : List BugEntry) (cid : String) (now : Nat) :
    Option (List BugEntry) :=
  match l with
  | [] => none
  | e :: rest =>
    if e.context_id == cid then
      some ({ e with
                status := "resolved"
                resolution_time := some (timeRepr now) } :: rest)
    else
      match flipFirst rest cid now with
      | some rest1 => some (e :: rest1)
      | none => none

/-- `resolve_bug_fix_context`: no status check of any kind.  The outer loop
runs over all active sessions (the `break` only leaves the inner loop), the
last match wins for `solution_state`/`session_id`; a context id found in no
active session leaves both as `None`, in which case `json.dumps(None)`
succeeds, the `UPDATE` runs (matching however many rows carry the id) and
the method returns without error and without any snapshot. -/
def resolve_bug_fix_context (s : State) (cid solution_description : String)
    (lessons : List String) (now : Nat) : State × Except Err Ret :=
  let active1 := s.active.map (fun p =>
    match flipFirst p.2.bug_fixes cid now with
    | some bl => (p.1, { p.2 with bug_fixes := bl })
    | none => p)
  let found := (s.active.filterMap (fun p =>
    (flipFirst p.2.bug_fixes cid now).map (fun bl =>
      (p.1, { p.2 with bug_fixes := bl })))).getLast?
  let s1 := { s with active := active1 }
  match found with
  | none =>
    ({ s1 with bug_rows := s1.bug_rows.map (fun r =>
        if r.context_id == cid then
          { r with
              solution_state := some .nullSol
              lessons_learned := some lessons
              resolved_at := some now }
        else r) },
     .ok .runit)
  | some (sid, m1) =>
    match serSession m1 [] with
    | .error e => (s1, .error e)
    | .ok blob =>
      let s2 := { s1 with bug_rows := s1.bug_rows.map (fun r =>
        if r.context_id == cid then
          { r with
              solution_state := some (.docSol blob)
              lessons_learned := some lessons
              resolved_at := some now }
        else r) }
      let res := create_snapshot s2 sid "post_bug_fix"
        ("After fixing: " ++ strTake solution_description 50 ++ "...") [] now
      (res.1, match res.2 with
              | .ok _ => .ok .runit
              | .error e => .error e)

/-- `restore_snapshot`.  The query requires the snapshot id and the session
id to match the same row (`WHERE snapshot_id = ? AND session_id = ?`); a
miss raises the not-found `ValueError` with nothing mutated.  On a hit the
blob always decompresses and deserialises (it was written by
`create_snapshot`).  If the session is not in `active_sessions` the method
returns the restored document without touching anything; if it is, the
overlay happens and the `restoration` snapshot is attempted — which inserts
the row and then raises `AttributeError`, because the overlay has just
turned the in-memory snapshot deque into a string. -/
def restore_snapshot (s : State) (sid qsid : String) (qts : Nat)
    (now : Nat) : State × Except Err Ret :=
  match s.snapshots.find? (fun r =>
      r.session_id == qsid && r.ts == qts && r.session_id == sid) with
  | none => (s, .error (.notFound "snapshot"))
  | some row =>
    match lookupActive s sid with
    | none => (s, .ok (.rdoc row.blob))
    | some m =>
      let m1 := applyRestored m row.blob
      let s1 := setActive s sid m1
      let res := create_snapshot s1 sid "restoration"
        ("Restored from snapshot snap_" ++ qsid ++ "_" ++ toString qts) [] now
      (res.1, match res.2 with
              | .ok _ => .ok (.rdoc row.blob)
              | .error e => .error e)

def metricsRows (sid : String) (m : Metrics) : List AnalyticsRow :=
  [{ session_id := sid, metric_type := "duration_hours",
     metric_value := m.duration_hours },
   { session_id := sid, metric_type := "snapshots_created",
     metric_value := Frac.ofNat m.snapshots_created },
   { session_id := sid, metric_type := "bug_fixes_attempted",
     metric_value := Frac.ofNat m.bug_fixes_attempted },
   { session_id := sid, metric_type := "bug_fixes_resolved",
     metric_value := Frac.ofNat m.bug_fixes_resolved },
   { session_id := sid, metric_type := "productivity_score",
     metric_value := m.productivity_score },
   { session_id := sid, metric_type := "bug_fix_success_rate",
     metric_value := m.bug_fix_success_rate }]

/-- `end_session`: metrics first (raises `TypeError` on a restored
string start time), then the `final` snapshot (raises on the bug-list cycle
or a same-second key collision, leaving the session active), then the
session row update with the dump of the live dict, the analytics rows, and
finally the pop from `active_sessions`. -/
def end_session (s : State) (sid summary : String) (now : Nat) :
    State × Except Err Ret :=
  match lookupActive s sid with
  | none => (s, .error (.notFound "session"))
  | some m =>
    match calculate_session_metrics now m with
    | .error e => (s, .error e)
    | .ok mets =>
      let res := create_snapshot s sid "final" ("Session ended: " ++ summary)
        [] now
      match res.2 with
      | .error e => (res.1, .error e)
      | .ok _ =>
        let s1 := res.1
        match lookupActive s1 sid with
        | none => (s1, .error (.notFound "session"))
        | some m1 =>
          match serSession m1 [] with
          | .error e => (s1, .error e)
          | .ok dump =>
            let s2 : State := { s1 with sessions := s1.sessions.map (fun rw =>
              if rw.session_id == sid then
                { rw with
                    end_time := some now
                    status := "completed"
                    context_data := .dump dump }
              else rw) }
            let s3 : State := { s2 with analytics := s2.analytics ++ metricsRows sid mets }
            let s4 := removeActive s3 sid
            match m.start_time with
            | .str _ => (s4, .error .typeError)
            | .dt st =>
              (s4, .ok (.rend
                { session_id := sid
                  duration_seconds := Frac.ofInt ((now : Int) - (st : Int))
                  metrics := mets
                  summary := summary }))

/-!
The recommendation engine (`SessionRecommendationEngine`).  Both entry
points only run SELECT statements; they are modelled with the same
state-threading shape as the mutators so that their read-only character is a
theorem about the same kind of object and not a typing artifact.  Floats are
modelled as rationals; every arithmetic operation involved is exact.
-/

/-- `len(json.loads(context_data).get('snapshots', []))`.  For an active
session the column holds the creation payload; a `'snapshots'` key there
would hold a string, whose `len` counts characters.  After `end_session`
the column holds the dump of the session dict, in which `'snapshots'` is
the stringified deque, so `len` again counts characters. -/
def cdSnapshotsLen : CtxData → Nat
  | .doc d =>
    match docGet d "snapshots" with
    | some v => v.length
    | none => 0
  | .dump sd => sd.snapshots_s.length

/-- `len(json.loads(context_data).get('bug_fixes', []))`; in a dump the
`'bug_fixes'` entry is a genuine JSON list. -/
def cdBugFixesLen : CtxData → Nat
  | .doc d =>
    match docGet d "bug_fixes" with
    | some v => v.length
    | none => 0
  | .dump sd => sd.bug_fixes.length

/-- `len([bf for bf in context_data.get('bug_fixes', []) if bf.get('status') != 'resolved'])`.
When the entry is a nonempty string (only possible for a caller-supplied
creation payload), iterating it yields characters and `bf.get` raises
`AttributeError`. -/
def cdUnresolvedCount : CtxData → Except Err Nat
  | .doc d =>
    match docGet d "bug_fixes" with
    | some v => if v.isEmpty then .ok 0 else .error .attributeError
    | none => .ok 0
  | .dump sd =>
    .ok ((sd.bug_fixes.filter (fun b => !(b.status == "resolved"))).length)

/-- `_calculate_session_duration` in hours (the stored start time always
parses; it is the insert-time clock second). -/
def session_duration_hours (row : SessionRow) (now : Nat) : Frac :=
  frac ((now : Int) - (row.start_time : Int)) 3600

/-- `_assess_session_health`. -/
def assess_session_health (row : SessionRow) (now : Nat) : String :=
  let d := session_duration_hours row now
  let h1 : Frac :=
    if (Frac.ofNat 6).blt d then (Frac.ofNat 1).sub (frac 3 10)
    else if (Frac.ofNat 4).blt d then (Frac.ofNat 1).sub (frac 1 10)
    else Frac.ofNat 1
  let h2 : Frac :=
    if (d.mul (Frac.ofNat 2)).blt (Frac.ofNat (cdBugFixesLen row.context_data)) then
      h1.sub (frac 2 10)
    else h1
  let expected := (Frac.ofNat 1).max (Frac.ofInt ((d.div (frac 1 2)).floor))
  let h3 : Frac :=
    if (Frac.ofNat (cdSnapshotsLen row.context_data)).blt (expected.mul (frac 1 2)) then
      h2.sub (frac 1 10)
    else h2
  if (frac 8 10).ble h3 then "excellent"
  else if (frac 6 10).ble h3 then "good"
  else if (frac 4 10).ble h3 then "fair"
  else "poor"

/-- Output dict of `recommend_session_actions`. -/
structure RecOut where
  immediate_actions : List String
  session_health : String
  productivity_tips : List String
  risk_alerts : List String
deriving DecidableEq

/-- `recommend_session_actions`; `none` models the `{'error': 'Session not
found'}` return. -/
def recommend_session_actions (s : State) (sid : String) (now : Nat) :
    State × Option RecOut :=
  match s.sessions.find? (fun r => r.session_id == sid) with
  | none => (s, none)
  | some row =>
    let d := session_duration_hours row now
    let ia1 : List String :=
      if (Frac.ofNat 4).blt d then
        ["Consider taking a break - long sessions can reduce productivity"]
      else []
    let ra1 : List String :=
      if (Frac.ofNat 4).blt d then
        ["Extended session detected - risk of fatigue-induced errors"]
      else []
    let pt : List String :=
      if (Frac.ofNat (cdSnapshotsLen row.context_data)).blt
          ((Frac.ofNat 1).max (Frac.ofInt ((d.div (Frac.ofNat 2)).floor))) then
        ["Create more frequent snapshots for better rollback capability"]
      else []
    let bug_fixes := s.bug_rows.filter (fun r => r.session_id == sid)
    let ra2 := ra1 ++
      (if bug_fixes.length > 3 then
        ["Multiple bug fixes in session - consider code review"]
      else [])
    let unresolved := bug_fixes.filter (fun r => !r.resolved_at.isSome)
    let ia2 := ia1 ++
      (if unresolved.length > 0 then
        [toString unresolved.length ++ " unresolved bugs need attention"]
      else [])
    (s, some
      { immediate_actions := ia2
        session_health := assess_session_health row now
        productivity_tips := pt
        risk_alerts := ra2 })

/-- Output dict of `predict_session_outcome`. -/
structure PredOut where
  completion_probability : Frac
  quality_risk_score : Frac
  estimated_remaining_time : Frac
  recommended_actions : List String
deriving DecidableEq

/-- `_get_historical_session_metrics`, reduced to the one field the
prediction formulas read (`avg_duration_hours`; the averaged analytics
metrics are fetched by the source but never used by any prediction).
`cursor.fetchone()[0] or 2.0` maps both an empty aggregate (NULL) and an
exact-zero average to 2.0. -/
def historical_avg_duration (s : State) (pid tech : String) : Frac :=
  let l := s.sessions.filter (fun r =>
    r.project_id == pid && r.technology == tech && r.end_time.isSome)
  let vals := l.map (fun r =>
    frac ((r.end_time.getD r.start_time : Int) - (r.start_time : Int)) 3600)
  if vals.length = 0 then Frac.ofNat 2
  else
    let a := (vals.foldl Frac.add (Frac.ofNat 0)).div (Frac.ofNat vals.length)
    if a = Frac.ofNat 0 then Frac.ofNat 2 else a

/-- `predict_session_outcome`; outer `none` is the session-not-found error
dict, the inner exception is the `AttributeError` of `cdUnresolvedCount`
(raised while the `completion_probability` entry is being computed, before
anything else is built). -/
def predict_session_outcome (s : State) (sid : String) (now : Nat) :
    State × Option (Except Err PredOut) :=
  match s.sessions.find? (fun r => r.session_id == sid) with
  | none => (s, none)
  | some row =>
    let d := session_duration_hours row now
    let hist := historical_avg_duration s row.project_id row.technology
    match cdUnresolvedCount row.context_data with
    | .error e => (s, some (.error e))
    | .ok u =>
      let b1 : Frac :=
        if (hist.mul (frac 3 2)).blt d then (frac 8 10).sub (frac 2 10)
        else if d.blt (hist.mul (frac 1 2)) then (frac 8 10).add (frac 1 10)
        else frac 8 10
      let b2 := if u > 2 then b1.sub ((frac 15 100).mul (Frac.ofNat u)) else b1
      let completion := (frac 1 10).max ((Frac.ofNat 1).min b2)
      let nb := cdBugFixesLen row.context_data
      let ns := cdSnapshotsLen row.context_data
      let r2 : Frac :=
        if (Frac.ofNat 4).blt d then
          (frac 2 10).add ((d.sub (Frac.ofNat 4)).mul (frac 1 10))
        else frac 2 10
      let r3 :=
        if nb > 3 then r2.add (((Frac.ofNat nb).sub (Frac.ofNat 3)).mul (frac 1 10))
        else r2
      let r4 :=
        if ((Frac.ofNat 1).max (d.mul (Frac.ofNat 2))).ble (Frac.ofNat ns) then
          r3.sub (frac 1 10)
        else r3
      let risk := (Frac.ofNat 0).max ((Frac.ofNat 1).min r4)
      let remaining := (frac 1 4).max
        (((Frac.ofNat 0).max (hist.sub d)).add ((Frac.ofNat u).mul (frac 1 2)))
      let recs :=
        (if (Frac.ofNat 3).blt d ∧ u > 0 then
          ["Consider taking a break before tackling remaining bugs"] else []) ++
        (if nb > 3 then
          ["High bug count detected - consider code review or refactoring"] else []) ++
        (if (Frac.ofNat ns).blt d then
          ["Create more snapshots to improve rollback capability"] else []) ++
        (if (Frac.ofNat 4).blt d then
          ["Long session detected - plan to wrap up soon"] else [])
      (s, some (.ok
        { completion_probability := completion
          quality_risk_score := risk
          estimated_remaining_time := remaining
          recommended_actions := recs }))

/-!
Operation alphabet and reachability.  A trace applies the public
state-manager operations in order, each stamped with the clock second at
which it runs; reachability is relative to a predicate selecting which
operations the environment may issue (instantiated with the trivial
predicate, or with the restriction that externally requested snapshot types
avoid the two lifecycle-reserved names).
-/

inductive Op
  | opCreateSession (pid tech stype : String) (prev : Option String) (ctx : Doc)
  | opCreateSnapshot (sid stype desc : String) (overlay : Doc)
  | opStartBugFix (sid desc : String) (overlay : Doc)
  | opLogAttempt (cid desc : String) (changes : Doc) (outcome : String)
  | opResolveBugFix (cid sol : String) (lessons : List String)
  | opRestoreSnapshot (sid qsid : String) (qts : Nat)
  | opEndSession (sid summary : String)

def applyOp (op : Op) (now : Nat) (s : State) : State × Except Err Ret :=
  match op with
  | .opCreateSession pid tech stype prev ctx =>
    create_session s pid tech stype prev ctx now
  | .opCreateSnapshot sid stype desc overlay =>
    create_snapshot s sid stype desc overlay now
  | .opStartBugFix sid desc overlay =>
    start_bug_fix_context s sid desc overlay now
  | .opLogAttempt cid desc changes outcome =>
    log_bug_fix_attempt s cid desc changes outcome now
  | .opResolveBugFix cid sol lessons =>
    resolve_bug_fix_context s cid sol lessons now
  | .opRestoreSnapshot sid qsid qts =>
    restore_snapshot s sid qsid qts now
  | .opEndSession sid summary =>
    end_session s sid summary now

/-- Trivial environment restriction: any operation. -/
def anyOp : Op → Prop := fun _ => True

/-- Environment restriction for the lifecycle invariant: externally
requested snapshot types never use the two names the lifecycle reserves
(the registered tool defaults to `checkpoint` and documents
`checkpoint`, `pre_fix`, `post_fix`, `milestone`). -/
def tameSnapTypes : Op → Prop
  | .opCreateSnapshot _ stype _ _ => stype ≠ "initial" ∧ stype ≠ "final"
  | _ => True

/-- States reachable from the fresh state by a W-restricted trace whose
clock seconds are non-decreasing; the `Nat` is the clock second of the last
operation (operations raising exceptions still contribute the partial state
they leave behind, exactly as in the source). -/
inductive Reach (W : Op → Prop) : State → Nat → Prop
  | init (t : Nat) : Reach W initState t
  | step {s : State} {t : Nat} (op : Op) (now : Nat) :
      Reach W s t → W op → t ≤ now → Reach W (applyOp op now s).1 now

/-- Persisted snapshot sequence of one session, in insertion order. -/
def snapsOf (l : List SnapshotRow) (sid : String) : List SnapshotRow :=
  l.filter (fun r => r.session_id == sid)

def countType (l : List SnapshotRow) (ty : String) : Nat :=
  (l.filter (fun r => r.stype == ty)).length

/-- Non-decreasing snapshot timestamps along a sequence. -/
def timesMono (l : List SnapshotRow) : Prop :=
  l.Chain' (fun a b => a.ts ≤ b.ts)

def isOkRet : Except Err Ret → Bool
  | .ok _ => true
  | .error _ => false

/-- The `snapshots_created` metric of a successful `end_session` call. -/
def endMetricsCreated (p : State × Except Err Ret) : Option Nat :=
  match p.2 with
  | .ok (.rend info) => some info.metrics.snapshots_created
  | _ => none

set_option maxRecDepth 4000

/-!
Concrete traces, used both to witness the universally quantified theorems
and to evaluate the source behaviour at the inputs where it diverges from
the specification.
-/

/-- Session created at second 0 for project `p`, technology `t`. -/
def exSid : String := generate_session_id "p" "t" 0

def exS1 : State :=
  (applyOp (.opCreateSession "p" "t" "development" none []) 0 initState).1

/-- The same session ended (successfully) at second 1. -/
def exS2 : State := (applyOp (.opEndSession exSid "done") 1 exS1).1

/-- A second session, which opens one bug-fix context and then tries to
resolve it. -/
def bugSid : String := generate_session_id "q" "t" 0

def bugS1 : State :=
  (applyOp (.opCreateSession "q" "t" "development" none []) 0 initState).1

def bugCid : String := mkContextId bugSid 1

def bugS2 : State :=
  (applyOp (.opStartBugFix bugSid "null pointer on save" []) 1 bugS1).1

def bugS3 : State :=
  (applyOp (.opResolveBugFix bugCid "added null check" []) 2 bugS2).1

/-- C3: for every call to `restore_snapshot` where no stored snapshot row
matches both the snapshot id and the session id, the operation fails with
the not-found error and the state is returned entirely unchanged — no
restoration snapshot is created and the snapshot sequence is untouched. -/
theorem restore_snapshot_no_match_not_found (s : State) (sid qsid : String)
    (qts now : Nat)
    (h : ∀ r ∈ s.snapshots,
      ¬(r.session_id = qsid ∧ r.ts = qts ∧ r.session_id = sid)) :
    restore_snapshot s sid qsid qts now = (s, .error (.notFound "snapshot")) := by
  have hf : s.snapshots.find? (fun r =>
      r.session_id == qsid && r.ts == qts && r.session_id == sid) = none := by
    rw [List.find?_eq_none]
    intro r hr
    have hr2 := h r hr
    simp only [Bool.and_eq_true, beq_iff_eq, not_and_or]
    tauto
  simp only [restore_snapshot, hf]

/-- Witness for C3: a wrong snapshot second against a real two-operation
trace resolves to the not-found error with the state unchanged. -/
theorem restore_snapshot_no_match_not_found_witness :
    restore_snapshot exS2 exSid exSid 99 5 = (exS2, .error (.notFound "snapshot")) :=
  restore_snapshot_no_match_not_found exS2 exSid exSid 99 5
    (by decide)

/-- C1 (divergence of the source from the claim): on the trace
create-session, end-session, the completed session's snapshot can be
restored successfully, yet no `restoration` snapshot is appended — the
state is returned bit-for-bit unchanged; and on the still-active session
the restore inserts the `restoration` row but then raises `AttributeError`
(the overlay turned the in-memory deque into a string), so no call on an
active session ever returns successfully. -/
theorem restore_snapshot_divergence :
    isOkRet (restore_snapshot exS2 exSid exSid 0 2).2 = true ∧
    (restore_snapshot exS2 exSid exSid 0 2).1 = exS2 ∧
    (exS2.snapshots.filter (fun r => r.stype == "restoration")).length = 0 ∧
    exS2.snapshots.length = 2 ∧
    (restore_snapshot exS1 exSid exSid 0 5).2 = .error .attributeError ∧
    ((restore_snapshot exS1 exSid exSid 0 5).1.snapshots.map (fun r => r.stype))
      = ["initial", "restoration"] := by
  refine ⟨?_, ?_, ?_, ?_, ?_, ?_⟩ <;> decide

/-- C5 (divergence of the source from the claim): resolving the one active
context of a live session raises the circular-reference `ValueError` (so
`InvalidState` is never produced), persists nothing (`resolved_at` stays
empty), creates zero `post_bug_fix` snapshots, and only flips the in-memory
status; while resolving a nonexistent context id returns silently with no
error at all. -/
theorem resolve_bug_fix_divergence :
    (applyOp (.opResolveBugFix bugCid "added null check" []) 2 bugS2).2
      = .error .circularRef ∧
    (bugS3.snapshots.filter (fun r => r.stype == "post_bug_fix")).length = 0 ∧
    (bugS3.bug_rows.map (fun r => r.resolved_at)) = [none] ∧
    ((lookupActive bugS3 bugSid).map (fun m =>
      m.bug_fixes.map (fun b => b.status))) = some ["resolved"] ∧
    resolve_bug_fix_context initState "missing_ctx" "sol" [] 0
      = (initState, .ok .runit) := by
  refine ⟨?_, ?_, ?_, ?_, ?_⟩ <;> decide

/-- C7 (divergence of the source from the claim): ending the session that
opened (and nominally resolved) one bug-fix context raises the
circular-reference `ValueError` instead of returning metrics, even though
the metric computation itself — evaluated at exactly this failing input —
would have produced `bug_fix_success_rate = 1` and
`bug_fixes_attempted = 1` as the claim states. -/
theorem end_session_bug_fix_divergence :
    (applyOp (.opEndSession bugSid "wrap") 3 bugS3).2 = .error .circularRef ∧
    ((lookupActive bugS3 bugSid).bind (fun m =>
        (calculate_session_metrics 3 m).toOption)).map (fun mets =>
        (mets.bug_fix_success_rate, mets.bug_fixes_attempted))
      = some (Frac.ofNat 1, 1) := by
  constructor <;> decide

/-- Refutation input for C6: logging an attempt against a context id that
does not exist returns silently with the state unchanged — no `NotFound`
is raised. -/
theorem log_attempt_missing_silent :
    log_bug_fix_attempt initState "missing_ctx" "try" [] "failed" 0
      = (initState, .ok .runit) := by decide

/-- Refutation input for C4: `create_session` with empty project id and
empty technology succeeds — a session row, an `initial` snapshot and an
in-memory working state are all created; no `InvalidArgument` exists in the
source. -/
theorem create_session_empty_args_succeeds :
    isOkRet (create_session initState "" "" "development" none [] 0).2 = true ∧
    (create_session initState "" "" "development" none [] 0).1.sessions.length = 1 ∧
    (create_session initState "" "" "development" none [] 0).1.snapshots.length = 1 ∧
    (create_session initState "" "" "development" none [] 0).1.active.length = 1 := by
  refine ⟨?_, ?_, ?_, ?_⟩ <;> decide

/-- Refutation input for C2: an externally requested snapshot of type
`initial` gives the session a second `initial` row in its persisted
sequence. -/
theorem two_initial_snapshots :
    sessionExists ((applyOp (.opCreateSnapshot exSid "initial" "x" []) 1 exS1).1)
      exSid = true ∧
    countType (snapsOf ((applyOp (.opCreateSnapshot exSid "initial" "x" []) 1
      exS1).1.snapshots) exSid) "initial" = 2 := by
  constructor <;> decide

/-- C8: `recommend_session_actions` and `predict_session_outcome` leave the
state untouched (they only run SELECT statements), and calling either a
second time on the state the first call returned — with the same clock
second, i.e. on an unchanged session — yields the identical output. -/
theorem recommend_predict_readonly_idempotent (s : State) (sid : String)
    (now : Nat) :
    (recommend_session_actions s sid now).1 = s ∧
    (predict_session_outcome s sid now).1 = s ∧
    (recommend_session_actions (recommend_session_actions s sid now).1 sid now).2
      = (recommend_session_actions s sid now).2 ∧
    (predict_session_outcome (predict_session_outcome s sid now).1 sid now).2
      = (predict_session_outcome s sid now).2 := by
  have h1 : (recommend_session_actions s sid now).1 = s := by
    unfold recommend_session_actions
    split <;> rfl
  have h2 : (predict_session_outcome s sid now).1 = s := by
    unfold predict_session_outcome
    split
    · rfl
    · split <;> rfl
  exact ⟨h1, h2, by rw [h1], by rw [h2]⟩

/-!
Structural lemmas about the operations, used by the remaining claims.
-/

lemma find?_append_of_none {α : Type} (p : α → Bool) {l1 : List α}
    (h : l1.find? p = none) (l2 : List α) :
    (l1 ++ l2).find? p = l2.find? p := by
  induction l1 with
  | nil => simp
  | cons a t ih =>
    by_cases hp : p a
    · rw [List.find?_cons_of_pos _ hp] at h
      exact absurd h (by simp)
    · rw [List.find?_cons_of_neg _ hp] at h
      simpa [List.find?_cons_of_neg _ hp] using ih h

lemma find?_none_of_any_false {α : Type} {p : α → Bool} {l : List α}
    (h : l.any p = false) : l.find? p = none := by
  rw [List.find?_eq_none]
  intro x hx
  rw [List.any_eq_false] at h
  exact h x hx

lemma map_id_of_eq {α : Type} (f : α → α) (l : List α)
    (h : ∀ a ∈ l, f a = a) : l.map f = l := by
  induction l with
  | nil => rfl
  | cons a t ih =>
    have ha := h a (by simp)
    have ht := ih (fun b hb => h b (by simp [hb]))
    simp [ha, ht]

lemma lookupActive_mem {s : State} {sid : String} {m : SessionMem}
    (h : lookupActive s sid = some m) : (sid, m) ∈ s.active := by
  unfold lookupActive at h
  cases hf : s.active.find? (fun p => p.1 == sid) with
  | none => rw [hf] at h; exact absurd h (by simp)
  | some q =>
    rw [hf] at h
    simp at h
    have hmem := List.mem_of_find?_eq_some hf
    have hpred := List.find?_some hf
    have h1 : q.1 = sid := by simpa [beq_iff_eq] using hpred
    have h2 : q = (sid, m) := by
      cases h
      exact Prod.ext h1 rfl
    rw [← h2]
    exact hmem

/-- The deque entry of the initial snapshot. -/
def initialRef (pid tech : String) (now : Nat) : SnapRef where
  snap_sid := generate_session_id pid tech now
  snap_ts := now
  rtype := "initial"
  rdesc := "Session started"

lemma sndOk {E : Except Err Ret} {v : Ret} (h : E = .ok v) (w : Ret) :
    (match E with
     | .ok _ => (Except.ok w : Except Err Ret)
     | .error e => .error e) = .ok w := by
  cases h
  rfl

lemma sndOk_inv {E : Except Err Ret} {w v : Ret}
    (h : (match E with
      | .ok _ => (Except.ok w : Except Err Ret)
      | .error e => .error e) = .ok v) : v = w := by
  cases E with
  | ok x => cases h; rfl
  | error e => exact absurd h (by simp)

/-- Serialised blob of the initial snapshot. -/
def initialBlob (pid tech stype : String) (ctx : Doc) (now : Nat) : StoredDoc where
  project_id := pid
  technology := tech
  session_type := stype
  start_time_s := timeRepr now
  context := ctx
  snapshots_s := deqRepr []
  bug_fixes := []
  extras := []

/-- Database row of the initial snapshot. -/
def initialSnapRow (pid tech stype : String) (ctx : Doc) (now : Nat) :
    SnapshotRow where
  session_id := generate_session_id pid tech now
  ts := now
  stype := "initial"
  blob := initialBlob pid tech stype ctx now
  description := "Session started"

/-- Behaviour of `create_session` on a fresh id: the row, the in-memory
state and the `initial` snapshot are created and the new id is returned. -/
lemma create_session_fresh (s : State) (pid tech stype : String)
    (prev : Option String) (ctx : Doc) (now : Nat)
    (hs : sessionExists s (generate_session_id pid tech now) = false)
    (ha : s.active.any (fun p => p.1 == generate_session_id pid tech now) = false)
    (hsn : s.snapshots.any (fun r =>
      r.session_id == generate_session_id pid tech now) = false) :
    (create_session s pid tech stype prev ctx now).2
      = .ok (.rid (generate_session_id pid tech now)) ∧
    (create_session s pid tech stype prev ctx now).1.sessions
      = s.sessions ++ [newRow pid tech stype ctx now] ∧
    (create_session s pid tech stype prev ctx now).1.snapshots
      = s.snapshots ++ [initialSnapRow pid tech stype ctx now] ∧
    (create_session s pid tech stype prev ctx now).1.active
      = s.active ++ [(generate_session_id pid tech now,
          { newMem pid tech stype ctx now with
              snapshots := .ring [initialRef pid tech now] })] ∧
    (create_session s pid tech stype prev ctx now).1.bug_rows = s.bug_rows ∧
    (create_session s pid tech stype prev ctx now).1.analytics = s.analytics := by
  set g := generate_session_id pid tech now with hg
  have hfind : s.active.find? (fun p => p.1 == g) = none :=
    find?_none_of_any_false ha
  have hmem0 : ∀ p ∈ s.active, (p.1 == g) = false := by
    rw [List.any_eq_false] at ha
    intro p hp
    have := ha p hp
    simpa using this
  have main : ∀ (B : List BridgeRow),
      let s3 : State := { s with
        sessions := s.sessions ++ [newRow pid tech stype ctx now],
        bridges := B,
        active := dictSet s.active g (newMem pid tech stype ctx now) }
      (create_snapshot s3 g "initial" "Session started" [] now).2
          = .ok (.rid ("snap_" ++ g ++ "_" ++ toString now)) ∧
        (create_snapshot s3 g "initial" "Session started" [] now).1.sessions
          = s.sessions ++ [newRow pid tech stype ctx now] ∧
        (create_snapshot s3 g "initial" "Session started" [] now).1.snapshots
          = s.snapshots ++ [initialSnapRow pid tech stype ctx now] ∧
        (create_snapshot s3 g "initial" "Session started" [] now).1.active
          = s.active ++ [(g, { newMem pid tech stype ctx now with
              snapshots := .ring [initialRef pid tech now] })] ∧
        (create_snapshot s3 g "initial" "Session started" [] now).1.bug_rows
          = s.bug_rows ∧
        (create_snapshot s3 g "initial" "Session started" [] now).1.analytics
          = s.analytics := by
    intro B
    simp only []
    have hds : dictSet s.active g (newMem pid tech stype ctx now)
        = s.active ++ [(g, newMem pid tech stype ctx now)] := by
      unfold dictSet
      rw [ha]
      simp
    rw [hds]
    have hlook : lookupActive { s with
        sessions := s.sessions ++ [newRow pid tech stype ctx now],
        bridges := B,
        active := s.active ++ [(g, newMem pid tech stype ctx now)] } g
        = some (newMem pid tech stype ctx now) := by
      unfold lookupActive
      simp only []
      rw [find?_append_of_none _ hfind]
      simp [List.find?_cons_of_pos]
    have hsnapX : snapExists { s with
        sessions := s.sessions ++ [newRow pid tech stype ctx now],
        bridges := B,
        active := s.active ++ [(g, newMem pid tech stype ctx now)] } g now
        = false := by
      unfold snapExists
      rw [List.any_eq_false] at hsn ⊢
      intro r hr hc
      rw [Bool.and_eq_true] at hc
      exact hsn r hr hc.1
    have hser : serSession (newMem pid tech stype ctx now) []
        = .ok (initialBlob pid tech stype ctx now) := by
      simp [serSession, hasLive, newMem, initialBlob, timeValStr, snapsValStr,
        docUpdate]
    unfold create_snapshot
    rw [hlook]
    dsimp only []
    rw [hser]
    dsimp only []
    rw [hsnapX]
    simp only [Bool.false_eq_true, if_false]
    dsimp only [newMem]
    simp only [List.length_nil, Nat.zero_lt_succ, if_true, List.nil_append,
      setActive]
    refine ⟨?_, ?_, ?_, ?_, ?_, ?_⟩ <;> try trivial
    rw [List.map_append]
    congr 1
    · apply map_id_of_eq
      intro p hp
      have h0 := hmem0 p hp
      simp [h0]
    · simp [initialRef, ringPush, snapRefOf, ← hg]
  unfold create_session
  rw [hg] at hs
  simp only [← hg, hs, Bool.false_eq_true, if_false]
  obtain ⟨m1, m2, m3, m4, m5, m6⟩ := main (bridgeRows { s with
    sessions := s.sessions ++ [newRow pid tech stype ctx now] } g prev)
  exact ⟨sndOk m1 _, m2, m3, m4, m5, m6⟩

lemma create_snapshot_sessions (s : State) (sid ty dsc : String) (ov : Doc)
    (now : Nat) :
    (create_snapshot s sid ty dsc ov now).1.sessions = s.sessions := by
  unfold create_snapshot
  repeat' split
  all_goals rfl

/-- The sessions table after `create_session` on a fresh id, with no other
assumption: the new row is present. -/
lemma create_session_sessions (s : State) (pid tech stype : String)
    (prev : Option String) (ctx : Doc) (now : Nat)
    (hex : sessionExists s (generate_session_id pid tech now) = false) :
    (create_session s pid tech stype prev ctx now).1.sessions
      = s.sessions ++ [newRow pid tech stype ctx now] := by
  unfold create_session
  simp only [hex, Bool.false_eq_true, if_false]
  rw [create_snapshot_sessions]

/-- C10: the generated session id is a deterministic function of the
project id, the technology and the whole-second clock value alone; a second
`create_session` call with the same project id and technology within the
same second therefore generates the identical id, and its `INSERT` into the
sessions relation dies on the primary key (`integrityError`) without
creating a distinct session: the state is returned exactly as the first
call left it. -/
theorem create_session_same_second_collision (s : State)
    (pid tech stype stype2 : String) (prev prev2 : Option String)
    (ctx ctx2 : Doc) (now : Nat) (sid : String)
    (h : (create_session s pid tech stype prev ctx now).2 = .ok (.rid sid)) :
    sid = generate_session_id pid tech now ∧
    create_session (create_session s pid tech stype prev ctx now).1 pid tech
        stype2 prev2 ctx2 now
      = ((create_session s pid tech stype prev ctx now).1,
         .error .integrityError) := by
  by_cases hex : sessionExists s (generate_session_id pid tech now) = true
  · exfalso
    unfold create_session at h
    rw [if_pos hex] at h
    exact absurd h (by simp)
  · have hex2 : sessionExists s (generate_session_id pid tech now) = false := by
      simpa using hex
    have hid : sid = generate_session_id pid tech now := by
      unfold create_session at h
      rw [if_neg hex] at h
      dsimp only [] at h
      have h2 := sndOk_inv h
      cases h2
      rfl
    refine ⟨hid, ?_⟩
    have hsess := create_session_sessions s pid tech stype prev ctx now hex2
    have hex3 : sessionExists (create_session s pid tech stype prev ctx now).1
        (generate_session_id pid tech now) = true := by
      unfold sessionExists
      rw [hsess, List.any_append]
      have : (newRow pid tech stype ctx now).session_id
          = generate_session_id pid tech now := rfl
      simp [this]
    conv_lhs => rw [create_session]
    rw [if_pos hex3]

/-- C4 (amended): `create_session` performs no validation whatsoever of
`project_id` or `technology` — with the empty string in either or both, the
call succeeds exactly like any other call on a fresh id: the session row is
persisted, the `initial` snapshot is taken, and the in-memory working state
is initialised. -/
theorem create_session_no_validation (s : State) (pid tech stype : String)
    (prev : Option String) (ctx : Doc) (now : Nat)
    (hs : sessionExists s (generate_session_id pid tech now) = false)
    (ha : s.active.any (fun p => p.1 == generate_session_id pid tech now) = false)
    (hsn : s.snapshots.any (fun r =>
      r.session_id == generate_session_id pid tech now) = false) :
    (create_session s pid tech stype prev ctx now).2
      = .ok (.rid (generate_session_id pid tech now)) ∧
    (create_session s pid tech stype prev ctx now).1.sessions
      = s.sessions ++ [newRow pid tech stype ctx now] ∧
    (create_session s pid tech stype prev ctx now).1.snapshots
      = s.snapshots ++ [initialSnapRow pid tech stype ctx now] ∧
    lookupActive (create_session s pid tech stype prev ctx now).1
        (generate_session_id pid tech now)
      = some { newMem pid tech stype ctx now with
          snapshots := .ring [initialRef pid tech now] } := by
  obtain ⟨m1, m2, m3, m4, m5, m6⟩ :=
    create_session_fresh s pid tech stype prev ctx now hs ha hsn
  refine ⟨m1, m2, m3, ?_⟩
  unfold lookupActive
  rw [m4]
  rw [find?_append_of_none _ (find?_none_of_any_false ha)]
  simp

/-- Witness for C4 (amended): empty project id and empty technology on the
fresh store. -/
theorem create_session_no_validation_witness :
    (create_session initState "" "" "development" none [] 0).2
      = .ok (.rid (generate_session_id "" "" 0)) ∧
    (create_session initState "" "" "development" none [] 0).1.sessions
      = initState.sessions ++ [newRow "" "" "development" [] 0] ∧
    (create_session initState "" "" "development" none [] 0).1.snapshots
      = initState.snapshots ++ [initialSnapRow "" "" "development" [] 0] ∧
    lookupActive (create_session initState "" "" "development" none [] 0).1
        (generate_session_id "" "" 0)
      = some { newMem "" "" "development" [] 0 with
          snapshots := .ring [initialRef "" "" 0] } :=
  create_session_no_validation initState "" "" "development" none [] 0
    (by decide) (by decide) (by decide)

/-- Witness for C10: two creations of (`p`, `t`) in second 0 on the fresh
store. -/
theorem create_session_same_second_collision_witness :
    exSid = generate_session_id "p" "t" 0 ∧
    create_session (create_session initState "p" "t" "development" none [] 0).1
        "p" "t" "development" none [] 0
      = ((create_session initState "p" "t" "development" none [] 0).1,
         .error .integrityError) :=
  create_session_same_second_collision initState "p" "t" "development"
    "development" none none [] [] 0 exSid (by decide)

lemma find?_of_mem_nodup (l : List BugRow) (cid : String) (row : BugRow)
    (hnd : (l.map (fun r => r.context_id)).Nodup) (hm : row ∈ l)
    (hc : row.context_id = cid) :
    l.find? (fun r => r.context_id == cid) = some row := by
  induction l with
  | nil => cases hm
  | cons a t ih =>
    rcases List.mem_cons.mp hm with rfl | hm2
    · exact List.find?_cons_of_pos _ (by simp [hc])
    · have hna : ¬ a.context_id = cid := by
        intro heq
        have : cid ∈ t.map (fun r => r.context_id) := by
          rw [← hc]
          exact List.mem_map_of_mem _ hm2
        rw [List.map_cons, List.nodup_cons] at hnd
        exact hnd.1 (heq ▸ this)
      rw [List.find?_cons_of_neg _ (by simp [hna])]
      exact ih (by
        rw [List.map_cons, List.nodup_cons] at hnd
        exact hnd.2) hm2

/-- C6 (amended): `log_bug_fix_attempt` on a context id that does not exist
in the bug-fix store is a silent no-op — it returns normally with the state
unchanged and raises nothing (no `NotFound`); on an existing context id it
appends exactly one attempt record (timestamp, description, changes,
outcome) to that context's attempt list, modifies no other context, and
touches no other table. -/
theorem log_bug_fix_attempt_behavior (s : State) (cid d : String) (ch : Doc)
    (oc : String) (now : Nat) :
    ((∀ r ∈ s.bug_rows, r.context_id ≠ cid) →
      log_bug_fix_attempt s cid d ch oc now = (s, .ok .runit)) ∧
    (∀ row, (s.bug_rows.map (fun r => r.context_id)).Nodup →
      row ∈ s.bug_rows → row.context_id = cid →
      (log_bug_fix_attempt s cid d ch oc now).2 = .ok .runit ∧
      { row with fix_attempts := row.fix_attempts ++
          [{ ts := now, description := d, code_changes := ch, outcome := oc }] }
        ∈ (log_bug_fix_attempt s cid d ch oc now).1.bug_rows ∧
      (∀ r ∈ s.bug_rows, r.context_id ≠ cid →
        r ∈ (log_bug_fix_attempt s cid d ch oc now).1.bug_rows) ∧
      (log_bug_fix_attempt s cid d ch oc now).1.bug_rows.length
        = s.bug_rows.length ∧
      (log_bug_fix_attempt s cid d ch oc now).1.sessions = s.sessions ∧
      (log_bug_fix_attempt s cid d ch oc now).1.snapshots = s.snapshots ∧
      (log_bug_fix_attempt s cid d ch oc now).1.active = s.active) := by
  constructor
  · intro hnone
    have hf : s.bug_rows.find? (fun r => r.context_id == cid) = none := by
      rw [List.find?_eq_none]
      intro r hr
      simpa using hnone r hr
    unfold log_bug_fix_attempt
    rw [hf]
  · intro row hnd hm hc
    have hf := find?_of_mem_nodup s.bug_rows cid row hnd hm hc
    unfold log_bug_fix_attempt
    rw [hf]
    refine ⟨rfl, ?_, ?_, by simp, rfl, rfl, rfl⟩
    · have := List.mem_map_of_mem (fun r =>
        if r.context_id == cid then
          { r with fix_attempts := row.fix_attempts ++
            [{ ts := now, description := d, code_changes := ch,
               outcome := oc }] }
        else r) hm
      simpa [hc] using this
    · intro r hr hne
      have := List.mem_map_of_mem (fun r =>
        if r.context_id == cid then
          { r with fix_attempts := row.fix_attempts ++
            [{ ts := now, description := d, code_changes := ch,
               outcome := oc }] }
        else r) hr
      simpa [hne] using this

/-- Witness for C6 (amended): the silent branch against the fresh store and
the append branch against the session that opened one bug-fix context. -/
theorem log_bug_fix_attempt_behavior_witness :
    log_bug_fix_attempt initState "missing2" "d" [] "failed" 3
      = (initState, .ok .runit) ∧
    ((log_bug_fix_attempt bugS2 bugCid "try a patch" [] "failed" 5).2
        = .ok .runit ∧
      { (bugS2.bug_rows.headD default) with
          fix_attempts := (bugS2.bug_rows.headD default).fix_attempts ++
            [{ ts := 5, description := "try a patch", code_changes := [],
               outcome := "failed" }] }
        ∈ (log_bug_fix_attempt bugS2 bugCid "try a patch" [] "failed" 5).1.bug_rows ∧
      (∀ r ∈ bugS2.bug_rows, r.context_id ≠ bugCid →
        r ∈ (log_bug_fix_attempt bugS2 bugCid "try a patch" [] "failed" 5).1.bug_rows) ∧
      (log_bug_fix_attempt bugS2 bugCid "try a patch" [] "failed" 5).1.bug_rows.length
        = bugS2.bug_rows.length ∧
      (log_bug_fix_attempt bugS2 bugCid "try a patch" [] "failed" 5).1.sessions
        = bugS2.sessions ∧
      (log_bug_fix_attempt bugS2 bugCid "try a patch" [] "failed" 5).1.snapshots
        = bugS2.snapshots ∧
      (log_bug_fix_attempt bugS2 bugCid "try a patch" [] "failed" 5).1.active
        = bugS2.active) :=
  ⟨(log_bug_fix_attempt_behavior initState "missing2" "d" [] "failed" 3).1
      (by decide),
   (log_bug_fix_attempt_behavior bugS2 bugCid "try a patch" [] "failed" 5).2
      (bugS2.bug_rows.headD default) (by decide) (by decide) (by decide)⟩

/-!
The in-memory snapshot ring is bounded by the deque capacity 50 in every
reachable state (claim C9): `deque(maxlen=50)` drops the oldest entry on
append once full, and nothing else ever grows the ring.
-/

def RingBoundL (l : List (String × SessionMem)) : Prop :=
  ∀ p ∈ l, ∀ xs, p.2.snapshots = SnapsVal.ring xs → xs.length ≤ 50

def RingBound (s : State) : Prop := RingBoundL s.active

lemma ringBoundL_setActive {s : State} {sid : String} {m : SessionMem}
    (h : RingBoundL s.active)
    (hm : ∀ xs, m.snapshots = SnapsVal.ring xs → xs.length ≤ 50) :
    RingBoundL (setActive s sid m).active := by
  intro p hp xs hxs
  unfold setActive at hp
  simp only [List.mem_map] at hp
  obtain ⟨q, hq, hfq⟩ := hp
  by_cases hb : (q.1 == sid) = true
  · rw [if_pos hb] at hfq
    cases hfq
    exact hm xs hxs
  · rw [if_neg hb] at hfq
    cases hfq
    exact h _ hq xs hxs

lemma ringBoundL_dictSet {l : List (String × SessionMem)} {k : String}
    {v : SessionMem} (h : RingBoundL l)
    (hv : ∀ xs, v.snapshots = SnapsVal.ring xs → xs.length ≤ 50) :
    RingBoundL (dictSet l k v) := by
  intro p hp xs hxs
  unfold dictSet at hp
  by_cases hc : (l.any (fun p => p.1 == k)) = true
  · rw [if_pos hc] at hp
    simp only [List.mem_map] at hp
    obtain ⟨q, hq, hfq⟩ := hp
    by_cases hb : (q.1 == k) = true
    · rw [if_pos hb] at hfq
      cases hfq
      exact hv xs hxs
    · rw [if_neg hb] at hfq
      cases hfq
      exact h _ hq xs hxs
  · rw [if_neg hc] at hp
    rcases List.mem_append.mp hp with hin | hin
    · exact h p hin xs hxs
    · simp only [List.mem_singleton] at hin
      cases hin
      exact hv xs hxs

lemma ringBound_create_snapshot {s : State} (sid ty dsc : String) (ov : Doc)
    (now : Nat) (h : RingBound s) :
    RingBound (create_snapshot s sid ty dsc ov now).1 := by
  unfold create_snapshot
  cases h1 : lookupActive s sid with
  | none => exact h
  | some m =>
    dsimp only []
    cases h2 : serSession m ov with
    | error e => exact h
    | ok blob =>
      dsimp only []
      by_cases h3 : snapExists s sid now = true
      · rw [if_pos h3]
        exact h
      · rw [if_neg h3]
        cases h4 : m.snapshots with
        | str s0 => exact fun p hp => h p hp
        | ring xs =>
          apply ringBoundL_setActive
          · exact fun p hp => h p hp
          · intro xs1 hxs1
            have hb := h (sid, m) (lookupActive_mem h1) xs h4
            cases hxs1
            unfold ringPush
            by_cases hlen : xs.length < 50
            · rw [if_pos hlen]
              simp only [List.length_append, List.length_singleton]
              omega
            · rw [if_neg hlen]
              simp only [List.length_append, List.length_singleton,
                List.length_tail]
              omega

lemma ringBound_applyOp (op : Op) (now : Nat) {s : State} (h : RingBound s) :
    RingBound (applyOp op now s).1 := by
  cases op with
  | opCreateSession pid tech stype prev ctx =>
    show RingBound (create_session s pid tech stype prev ctx now).1
    unfold create_session
    dsimp only []
    by_cases hex : sessionExists s (generate_session_id pid tech now) = true
    · rw [if_pos hex]
      exact h
    · rw [if_neg hex]
      apply ringBound_create_snapshot
      apply ringBoundL_dictSet
      · exact fun p hp => h p hp
      · intro xs hxs
        cases hxs
        simp
  | opCreateSnapshot sid stype desc overlay =>
    exact ringBound_create_snapshot sid stype desc overlay now h
  | opStartBugFix sid desc overlay =>
    show RingBound (start_bug_fix_context s sid desc overlay now).1
    unfold start_bug_fix_context
    cases h1 : lookupActive s sid with
    | none => exact h
    | some m =>
      dsimp only []
      cases h2 : serSession m overlay with
      | error e => exact h
      | ok blob =>
        dsimp only []
        by_cases h3 : (s.bug_rows.any (fun r =>
            r.context_id == mkContextId sid now)) = true
        · rw [if_pos h3]
          exact h
        · rw [if_neg h3]
          dsimp only []
          apply ringBound_create_snapshot
          apply ringBoundL_setActive
          · exact fun p hp => h p hp
          · intro xs hxs
            exact h (sid, m) (lookupActive_mem h1) xs hxs
  | opLogAttempt cid desc changes outcome =>
    show RingBound (log_bug_fix_attempt s cid desc changes outcome now).1
    unfold log_bug_fix_attempt
    cases hf : s.bug_rows.find? (fun r => r.context_id == cid) with
    | none => exact h
    | some row => exact fun p hp => h p hp
  | opResolveBugFix cid sol lessons =>
    show RingBound (resolve_bug_fix_context s cid sol lessons now).1
    unfold resolve_bug_fix_context
    dsimp only []
    have hmapped : RingBoundL (s.active.map (fun p =>
        match flipFirst p.2.bug_fixes cid now with
        | some bl => (p.1, { p.2 with bug_fixes := bl })
        | none => p)) := by
      intro p hp xs hxs
      simp only [List.mem_map] at hp
      obtain ⟨q, hq, hfq⟩ := hp
      cases hfl : flipFirst q.2.bug_fixes cid now with
      | some bl =>
        rw [hfl] at hfq
        cases hfq
        exact h q hq xs hxs
      | none =>
        rw [hfl] at hfq
        cases hfq
        exact h _ hq xs hxs
    cases hfound : (s.active.filterMap (fun p =>
        (flipFirst p.2.bug_fixes cid now).map (fun bl =>
          (p.1, { p.2 with bug_fixes := bl })))).getLast? with
    | none => exact fun p hp => hmapped p hp
    | some q =>
      dsimp only []
      cases h2 : serSession q.2 [] with
      | error e => exact fun p hp => hmapped p hp
      | ok blob =>
        dsimp only []
        apply ringBound_create_snapshot
        exact fun p hp => hmapped p hp
  | opRestoreSnapshot sid qsid qts =>
    show RingBound (restore_snapshot s sid qsid qts now).1
    unfold restore_snapshot
    cases hf : s.snapshots.find? (fun r =>
        r.session_id == qsid && r.ts == qts && r.session_id == sid) with
    | none => exact h
    | some row =>
      dsimp only []
      cases h1 : lookupActive s sid with
      | none => exact h
      | some m =>
        dsimp only []
        apply ringBound_create_snapshot
        apply ringBoundL_setActive
        · exact fun p hp => h p hp
        · intro xs hxs
          exact absurd hxs (by simp [applyRestored])
  | opEndSession sid summary =>
    show RingBound (end_session s sid summary now).1
    unfold end_session
    cases h1 : lookupActive s sid with
    | none => exact h
    | some m =>
      dsimp only []
      cases h2 : calculate_session_metrics now m with
      | error e => exact h
      | ok mets =>
        dsimp only []
        have hsnap : RingBound (create_snapshot s sid "final"
            ("Session ended: " ++ summary) [] now).1 :=
          ringBound_create_snapshot _ _ _ _ _ h
        cases h3 : (create_snapshot s sid "final"
            ("Session ended: " ++ summary) [] now).2 with
        | error e => exact hsnap
        | ok v =>
          dsimp only []
          cases h4 : lookupActive (create_snapshot s sid "final"
              ("Session ended: " ++ summary) [] now).1 sid with
          | none => exact hsnap
          | some m1 =>
            dsimp only []
            cases h5 : serSession m1 [] with
            | error e => exact hsnap
            | ok dump =>
              dsimp only []
              cases h6 : m.start_time with
              | str s0 =>
                intro p hp xs hxs
                unfold removeActive at hp
                have := List.mem_of_mem_filter hp
                exact hsnap p this xs hxs
              | dt st =>
                intro p hp xs hxs
                unfold removeActive at hp
                have := List.mem_of_mem_filter hp
                exact hsnap p this xs hxs

/-- Every state reachable from the fresh store keeps all in-memory snapshot
rings at length at most 50. -/
lemma reach_ringBound {W : Op → Prop} {s : State} {t : Nat}
    (h : Reach W s t) : RingBound s := by
  induction h with
  | init t =>
    intro p hp
    cases hp
  | step op now hr hw hle ih => exact ringBound_applyOp op now ih

lemma create_snapshot_ok_ring {s : State} {sid ty dsc : String} {ov : Doc}
    {now : Nat} {v : Ret}
    (h : (create_snapshot s sid ty dsc ov now).2 = .ok v) :
    ∃ m xs, lookupActive s sid = some m ∧ m.snapshots = SnapsVal.ring xs := by
  unfold create_snapshot at h
  revert h
  cases h1 : lookupActive s sid with
  | none => intro h; exact absurd h (by simp)
  | some m =>
    dsimp only []
    cases h2 : serSession m ov with
    | error e => intro h; exact absurd h (by simp)
    | ok blob =>
      dsimp only []
      by_cases h3 : snapExists s sid now = true
      · rw [if_pos h3]
        intro h
        exact absurd h (by simp)
      · rw [if_neg h3]
        cases h4 : m.snapshots with
        | str s0 => intro h; exact absurd h (by simp)
        | ring xs => exact fun _ => ⟨m, xs, rfl, h4⟩

/-- C9: the `snapshots_created` metric returned by a successful
`end_session` is `len(session_data['snapshots'])`, computed from the
bounded in-memory deque of capacity 50, so on every reachable state it
never exceeds 50 — even when more than 50 snapshots were persisted during
the session, entries evicted from the ring are not counted although they
remain in the durable store. -/
theorem end_session_snapshots_metric_le_50 {W : Op → Prop} (s : State)
    (t : Nat) (h : Reach W s t) (sid summary : String) (now : Nat) (n : Nat)
    (hm : endMetricsCreated (end_session s sid summary now) = some n) :
    n ≤ 50 := by
  have hrb : RingBound s := reach_ringBound h
  unfold end_session at hm
  revert hm
  cases h1 : lookupActive s sid with
  | none => intro hm; exact absurd hm (by simp [endMetricsCreated])
  | some m =>
    dsimp only []
    cases h2 : calculate_session_metrics now m with
    | error e => intro hm; exact absurd hm (by simp [endMetricsCreated])
    | ok mets =>
      dsimp only []
      cases h3 : (create_snapshot s sid "final"
          ("Session ended: " ++ summary) [] now).2 with
      | error e => intro hm; exact absurd hm (by simp [endMetricsCreated])
      | ok v =>
        dsimp only []
        cases h4 : lookupActive (create_snapshot s sid "final"
            ("Session ended: " ++ summary) [] now).1 sid with
        | none => intro hm; exact absurd hm (by simp [endMetricsCreated])
        | some m1 =>
          dsimp only []
          cases h5 : serSession m1 [] with
          | error e => intro hm; exact absurd hm (by simp [endMetricsCreated])
          | ok dump =>
            dsimp only []
            cases h6 : m.start_time with
            | str s0 => intro hm; exact absurd hm (by simp [endMetricsCreated])
            | dt st =>
              intro hm
              simp only [endMetricsCreated] at hm
              have hmn : mets.snapshots_created = n := by
                cases hm
                rfl
              have hring : ∃ xs, m.snapshots = SnapsVal.ring xs := by
                obtain ⟨m2, xs, hl2, hr2⟩ := create_snapshot_ok_ring h3
                rw [h1] at hl2
                cases hl2
                exact ⟨xs, hr2⟩
              obtain ⟨xs, hxs⟩ := hring
              have hlen : xs.length ≤ 50 :=
                hrb (sid, m) (lookupActive_mem h1) xs hxs
              have hsc : mets.snapshots_created = snapsLen m.snapshots := by
                unfold calculate_session_metrics at h2
                rw [h6] at h2
                cases h2
                rfl
              rw [← hmn, hsc, hxs]
              exact hlen

/-- Witness for C9: the one-session trace created at second 0 and ended at
second 1 reports one snapshot, within the bound. -/
theorem end_session_snapshots_metric_le_50_witness :
    endMetricsCreated (end_session exS1 exSid "done" 1) = some 1 ∧ 1 ≤ 50 :=
  ⟨by decide,
   end_session_snapshots_metric_le_50 (W := anyOp) exS1 0
     (Reach.step (.opCreateSession "p" "t" "development" none []) 0
       (Reach.init 0) trivial (Nat.le_refl 0))
     exSid "done" 1 1 (by decide)⟩

/-!
The snapshot-sequence lifecycle invariant (claim C2): per session, exactly
one `initial` snapshot sitting first, non-decreasing timestamps, and — once
the session is completed — exactly one `final` snapshot sitting last.
-/

/-- Whether a session id is a key of `active_sessions`. -/
def activeKey (s : State) (sid : String) : Bool :=
  s.active.any (fun p => p.1 == sid)

/-- The two dynamic slots of a live session dict are always stringified
together (by a restore) or structured together. -/
def pairedMem (m : SessionMem) : Prop :=
  (∃ u, m.start_time = TimeVal.dt u) ↔ (∃ xs, m.snapshots = SnapsVal.ring xs)

lemma any_congr_mem {α : Type} {f g : α → Bool} {l : List α}
    (h : ∀ a ∈ l, f a = g a) : l.any f = l.any g := by
  induction l with
  | nil => rfl
  | cons a t ih =>
    simp [List.any_cons, h a (by simp), ih (fun b hb => h b (by simp [hb]))]

lemma head?_append_left {α : Type} {l : List α} (l2 : List α) (h : l ≠ []) :
    (l ++ l2).head? = l.head? := by
  cases l with
  | nil => exact absurd rfl h
  | cons a t => rfl

lemma activeKey_setActive (s : State) (sid : String) (m : SessionMem)
    (k : String) : activeKey (setActive s sid m) k = activeKey s k := by
  unfold activeKey setActive
  rw [List.any_map]
  apply any_congr_mem
  intro p hp
  by_cases hb : p.1 = sid
  · simp [Function.comp, hb]
  · simp [Function.comp, hb]

lemma mem_setActive {s : State} {sid : String} {m : SessionMem}
    {p : String × SessionMem} (hp : p ∈ (setActive s sid m).active) :
    p ∈ s.active ∨ p = (sid, m) := by
  unfold setActive at hp
  simp only [List.mem_map] at hp
  obtain ⟨q, hq, hfq⟩ := hp
  by_cases hb : (q.1 == sid) = true
  · rw [if_pos hb] at hfq
    right
    exact hfq.symm
  · rw [if_neg hb] at hfq
    left
    exact hfq ▸ hq

lemma activeKey_removeActive_self (s : State) (sid : String) :
    activeKey (removeActive s sid) sid = false := by
  unfold activeKey removeActive
  rw [List.any_eq_false]
  intro p hp
  rw [List.mem_filter] at hp
  simpa using hp.2

lemma activeKey_removeActive_ne (s : State) {sid k : String} (h : ¬ k = sid) :
    activeKey (removeActive s sid) k = activeKey s k := by
  unfold activeKey removeActive
  rw [List.any_filter]
  apply any_congr_mem
  intro a ha
  by_cases hk : (a.1 == k) = true
  · have hak : a.1 = k := by simpa using hk
    have : (a.1 == sid) = false := by
      simp [hak]
      exact h
    simp [hk, this]
  · simp [hk]

lemma lookupActive_of_key {s : State} {sid : String}
    (h : activeKey s sid = true) : ∃ m, lookupActive s sid = some m := by
  unfold activeKey at h
  unfold lookupActive
  cases hf : s.active.find? (fun p => p.1 == sid) with
  | none =>
    rw [List.find?_eq_none] at hf
    rw [List.any_eq_true] at h
    obtain ⟨p, hp, hb⟩ := h
    exact absurd hb (hf p hp)
  | some q => exact ⟨q.2, by simp⟩

lemma lookupActive_none_of_key {s : State} {sid : String}
    (h : activeKey s sid = false) : lookupActive s sid = none := by
  unfold lookupActive
  rw [find?_none_of_any_false h]
  rfl

lemma snapsOf_append (l : List SnapshotRow) (row : SnapshotRow) (k : String) :
    snapsOf (l ++ [row]) k
      = snapsOf l k ++ (if row.session_id == k then [row] else []) := by
  unfold snapsOf
  rw [List.filter_append]
  congr 1
  simp [List.filter_singleton]

lemma countType_append (l1 l2 : List SnapshotRow) (ty : String) :
    countType (l1 ++ l2) ty = countType l1 ty + countType l2 ty := by
  unfold countType
  rw [List.filter_append, List.length_append]

lemma mem_of_getLast?_mem {α : Type} {l : List α} {a : α}
    (h : a ∈ l.getLast?) : a ∈ l := by
  obtain ⟨hne, rfl⟩ := List.mem_getLast?_eq_getLast h
  exact List.getLast_mem hne

lemma activeKey_of_lookup {s : State} {sid : String} {m : SessionMem}
    (h : lookupActive s sid = some m) : activeKey s sid = true := by
  unfold activeKey
  rw [List.any_eq_true]
  exact ⟨(sid, m), lookupActive_mem h, by simp⟩

lemma ne_nil_of_countType_one {l : List SnapshotRow} {ty : String}
    (h : countType l ty = 1) : l ≠ [] := by
  intro he
  subst he
  simp [countType] at h

/-- One call to `create_snapshot` either raises before touching anything, or
appends exactly one row — and, when the in-memory deque is still a deque,
also pushes the matching entry onto it. -/
lemma create_snapshot_cases (s : State) (sid ty dsc : String) (ov : Doc)
    (now : Nat) :
    ((create_snapshot s sid ty dsc ov now).1 = s ∧
      ∃ e, (create_snapshot s sid ty dsc ov now).2 = Except.error e) ∨
    (∃ m blob, lookupActive s sid = some m ∧ serSession m ov = .ok blob ∧
      snapExists s sid now = false ∧
      ((∃ s0, m.snapshots = SnapsVal.str s0 ∧
        create_snapshot s sid ty dsc ov now
          = ({ s with snapshots := s.snapshots ++ [snapRowOf sid now ty dsc blob] },
             .error .attributeError)) ∨
       (∃ xs, m.snapshots = SnapsVal.ring xs ∧
        create_snapshot s sid ty dsc ov now
          = (setActive { s with snapshots := s.snapshots ++ [snapRowOf sid now ty dsc blob] }
              sid { m with snapshots := .ring (ringPush xs (snapRefOf sid now ty dsc)) },
             .ok (.rid ("snap_" ++ sid ++ "_" ++ toString now)))))) := by
  unfold create_snapshot
  cases h1 : lookupActive s sid with
  | none => exact Or.inl ⟨rfl, _, rfl⟩
  | some m =>
    dsimp only []
    cases h2 : serSession m ov with
    | error e => exact Or.inl ⟨rfl, e, rfl⟩
    | ok blob =>
      dsimp only []
      by_cases h3 : snapExists s sid now = true
      · rw [if_pos h3]
        exact Or.inl ⟨rfl, _, rfl⟩
      · rw [if_neg h3]
        cases h4 : m.snapshots with
        | str s0 =>
          exact Or.inr ⟨m, blob, rfl, h2, by simpa using h3,
            Or.inl ⟨s0, h4, rfl⟩⟩
        | ring xs =>
          exact Or.inr ⟨m, blob, rfl, h2, by simpa using h3,
            Or.inr ⟨xs, h4, rfl⟩⟩

/-- The lifecycle invariant.  `t` bounds every recorded snapshot second. -/
structure Inv (s : State) (t : Nat) : Prop where
  nodupSess : (s.sessions.map (fun r => r.session_id)).Nodup
  snapOwned : ∀ r ∈ s.snapshots, sessionExists s r.session_id = true
  timeBound : ∀ r ∈ s.snapshots, r.ts ≤ t
  statusVals : ∀ row ∈ s.sessions,
    row.status = "active" ∨ row.status = "completed"
  activeIff : ∀ sid, activeKey s sid = true ↔
    (∃ row ∈ s.sessions, row.session_id = sid ∧ row.status = "active")
  paired : ∀ p ∈ s.active, pairedMem p.2
  headInitial : ∀ row ∈ s.sessions,
    (snapsOf s.snapshots row.session_id).head?.map (fun r => r.stype)
      = some "initial"
  oneInitial : ∀ row ∈ s.sessions,
    countType (snapsOf s.snapshots row.session_id) "initial" = 1
  mono : ∀ row ∈ s.sessions, timesMono (snapsOf s.snapshots row.session_id)
  finalCompleted : ∀ row ∈ s.sessions, row.status = "completed" →
    countType (snapsOf s.snapshots row.session_id) "final" = 1 ∧
    (snapsOf s.snapshots row.session_id).getLast?.map (fun r => r.stype)
      = some "final"
  noFinalActive : ∀ row ∈ s.sessions, row.status ≠ "completed" →
    countType (snapsOf s.snapshots row.session_id) "final" = 0

/-- Under the invariant a session id determines its row. -/
lemma session_unique {s : State} {t : Nat} (inv : Inv s t)
    {r1 r2 : SessionRow} (h1 : r1 ∈ s.sessions) (h2 : r2 ∈ s.sessions)
    (he : r1.session_id = r2.session_id) : r1 = r2 :=
  List.inj_on_of_nodup_map inv.nodupSess h1 h2 he

lemma inv_mono_time {s : State} {t u : Nat} (inv : Inv s t) (ht : t ≤ u) :
    Inv s u :=
  { inv with timeBound := fun r hr => le_trans (inv.timeBound r hr) ht }

/-- The invariant only reads the sessions table, the snapshots table and the
`active_sessions` dict — and the dict only through its key set and the
pairing of its members. -/
lemma inv_of_core_eq {s s2 : State} {t : Nat} (inv : Inv s t)
    (hse : s2.sessions = s.sessions) (hsn : s2.snapshots = s.snapshots)
    (hak : ∀ k, activeKey s2 k = activeKey s k)
    (hp : ∀ p ∈ s2.active, pairedMem p.2) : Inv s2 t := by
  refine ⟨?_, ?_, ?_, ?_, ?_, hp, ?_, ?_, ?_, ?_, ?_⟩
  · rw [hse]
    exact inv.nodupSess
  · intro r hr
    rw [hsn] at hr
    have hx := inv.snapOwned r hr
    unfold sessionExists at hx ⊢
    rw [hse]
    exact hx
  · intro r hr
    rw [hsn] at hr
    exact inv.timeBound r hr
  · intro row hrow
    rw [hse] at hrow
    exact inv.statusVals row hrow
  · intro sid
    rw [hak sid, hse]
    exact inv.activeIff sid
  · intro row hrow
    rw [hse] at hrow
    rw [hsn]
    exact inv.headInitial row hrow
  · intro row hrow
    rw [hse] at hrow
    rw [hsn]
    exact inv.oneInitial row hrow
  · intro row hrow
    rw [hse] at hrow
    rw [hsn]
    exact inv.mono row hrow
  · intro row hrow hc
    rw [hse] at hrow
    rw [hsn]
    exact inv.finalCompleted row hrow hc
  · intro row hrow hc
    rw [hse] at hrow
    rw [hsn]
    exact inv.noFinalActive row hrow hc

/-- The fresh store satisfies the invariant at every clock value. -/
lemma inv_init (t : Nat) : Inv initState t := by
  refine ⟨?_, ?_, ?_, ?_, ?_, ?_, ?_, ?_, ?_, ?_, ?_⟩ <;>
    first
      | exact List.nodup_nil
      | (intro r hr; cases hr)
      | (intro sid
         constructor
         · intro h
           simp [activeKey, initState] at h
         · intro h
           obtain ⟨row, hrow, _⟩ := h
           cases hrow)

/-- Appending one snapshot row of a non-reserved type for a session whose
row is still `active` preserves the invariant. -/
lemma inv_append_snap {s : State} {t : Nat} (inv : Inv s t) (now : Nat)
    (ht : t ≤ now) (row : SnapshotRow) (hts : row.ts = now)
    (hty1 : row.stype ≠ "initial") (hty2 : row.stype ≠ "final")
    (hown : ∃ srow ∈ s.sessions, srow.session_id = row.session_id ∧
      srow.status = "active") :
    Inv { s with snapshots := s.snapshots ++ [row] } now := by
  obtain ⟨srow, hsrow, hsid, hact⟩ := hown
  have hcount1 : countType [row] "initial" = 0 := by
    simp [countType, List.filter_singleton, hty1]
  have hcountF : countType [row] "final" = 0 := by
    simp [countType, List.filter_singleton, hty2]
  refine ⟨inv.nodupSess, ?_, ?_, inv.statusVals, inv.activeIff, inv.paired,
    ?_, ?_, ?_, ?_, ?_⟩
  · intro r hr
    rcases List.mem_append.mp hr with hin | hin
    · exact inv.snapOwned r hin
    · rw [List.mem_singleton] at hin
      subst hin
      show sessionExists s r.session_id = true
      unfold sessionExists
      rw [List.any_eq_true]
      exact ⟨srow, hsrow, by simp [hsid]⟩
  · intro r hr
    rcases List.mem_append.mp hr with hin | hin
    · exact le_trans (inv.timeBound r hin) ht
    · rw [List.mem_singleton] at hin
      subst hin
      exact le_of_eq hts
  · intro row2 hrow2
    show (snapsOf (s.snapshots ++ [row]) row2.session_id).head?.map
        (fun r => r.stype) = some "initial"
    rw [snapsOf_append]
    by_cases hc : (row.session_id == row2.session_id) = true
    · rw [if_pos hc]
      rw [head?_append_left _
        (ne_nil_of_countType_one (inv.oneInitial row2 hrow2))]
      exact inv.headInitial row2 hrow2
    · rw [if_neg hc, List.append_nil]
      exact inv.headInitial row2 hrow2
  · intro row2 hrow2
    show countType (snapsOf (s.snapshots ++ [row]) row2.session_id)
        "initial" = 1
    rw [snapsOf_append]
    by_cases hc : (row.session_id == row2.session_id) = true
    · rw [if_pos hc, countType_append, hcount1, inv.oneInitial row2 hrow2]
    · rw [if_neg hc, List.append_nil]
      exact inv.oneInitial row2 hrow2
  · intro row2 hrow2
    show timesMono (snapsOf (s.snapshots ++ [row]) row2.session_id)
    rw [snapsOf_append]
    by_cases hc : (row.session_id == row2.session_id) = true
    · rw [if_pos hc]
      unfold timesMono
      rw [List.chain'_append]
      refine ⟨inv.mono row2 hrow2, List.chain'_singleton _, ?_⟩
      intro x hx y hy
      simp only [List.head?_cons, Option.mem_def, Option.some.injEq] at hy
      subst hy
      have hxs : x ∈ snapsOf s.snapshots row2.session_id :=
        mem_of_getLast?_mem hx
      have hxm : x ∈ s.snapshots := List.mem_of_mem_filter hxs
      rw [hts]
      exact le_trans (inv.timeBound x hxm) ht
    · rw [if_neg hc, List.append_nil]
      exact inv.mono row2 hrow2
  · intro row2 hrow2 hcomp
    have hne : (row.session_id == row2.session_id) = false := by
      rw [beq_eq_false_iff_ne]
      intro he
      have : srow = row2 := session_unique inv hsrow hrow2 (hsid.trans he)
      rw [this, hcomp] at hact
      exact absurd hact (by decide)
    show countType (snapsOf (s.snapshots ++ [row]) row2.session_id)
          "final" = 1 ∧
        (snapsOf (s.snapshots ++ [row]) row2.session_id).getLast?.map
          (fun r => r.stype) = some "final"
    rw [snapsOf_append, hne]
    simp only [Bool.false_eq_true, if_false, List.append_nil]
    exact inv.finalCompleted row2 hrow2 hcomp
  · intro row2 hrow2 hnc
    show countType (snapsOf (s.snapshots ++ [row]) row2.session_id)
        "final" = 0
    rw [snapsOf_append]
    by_cases hc : (row.session_id == row2.session_id) = true
    · rw [if_pos hc, countType_append, hcountF,
        inv.noFinalActive row2 hrow2 hnc]
    · rw [if_neg hc, List.append_nil]
      exact inv.noFinalActive row2 hrow2 hnc

/-- A `create_snapshot` call with a type other than `initial` and `final`
preserves the invariant, whatever it returns. -/
lemma inv_create_snapshot {s : State} {t : Nat} (inv : Inv s t) (now : Nat)
    (ht : t ≤ now) (sid ty dsc : String) (ov : Doc)
    (hty1 : ty ≠ "initial") (hty2 : ty ≠ "final") :
    Inv (create_snapshot s sid ty dsc ov now).1 now := by
  rcases create_snapshot_cases s sid ty dsc ov now with
    ⟨heq, _⟩ | ⟨m, blob, hl, hser, hsx, hbr⟩
  · rw [heq]
    exact inv_mono_time inv ht
  · have hkey := activeKey_of_lookup hl
    have hown := (inv.activeIff sid).mp hkey
    have hinv2 := inv_append_snap inv now ht (snapRowOf sid now ty dsc blob)
      rfl hty1 hty2 hown
    rcases hbr with ⟨s0, hstr, heq⟩ | ⟨xs, hring, heq⟩
    · rw [heq]
      exact hinv2
    · rw [heq]
      refine inv_of_core_eq hinv2 rfl rfl
        (fun k => activeKey_setActive _ sid _ k) ?_
      intro p hp
      rcases mem_setActive hp with hold | hnew
      · exact inv.paired p hold
      · subst hnew
        have hpm := inv.paired (sid, m) (lookupActive_mem hl)
        exact ⟨fun _ => ⟨_, rfl⟩, fun _ => hpm.mpr ⟨xs, hring⟩⟩

lemma inv_log_attempt {s : State} {t : Nat} (inv : Inv s t) (cid d : String)
    (ch : Doc) (oc : String) (now : Nat) (ht : t ≤ now) :
    Inv (log_bug_fix_attempt s cid d ch oc now).1 now := by
  unfold log_bug_fix_attempt
  cases hf : s.bug_rows.find? (fun r => r.context_id == cid) with
  | none => exact inv_mono_time inv ht
  | some row =>
    dsimp only []
    exact inv_of_core_eq (inv_mono_time inv ht) rfl rfl (fun k => rfl)
      inv.paired

lemma inv_start_bug_fix {s : State} {t : Nat} (inv : Inv s t)
    (sid d : String) (ov : Doc) (now : Nat) (ht : t ≤ now) :
    Inv (start_bug_fix_context s sid d ov now).1 now := by
  unfold start_bug_fix_context
  cases hl : lookupActive s sid with
  | none => exact inv_mono_time inv ht
  | some m =>
    dsimp only []
    cases h2 : serSession m ov with
    | error e => exact inv_mono_time inv ht
    | ok blob =>
      dsimp only []
      by_cases h3 : (s.bug_rows.any (fun r =>
          r.context_id == mkContextId sid now)) = true
      · rw [if_pos h3]
        exact inv_mono_time inv ht
      · rw [if_neg h3]
        dsimp only []
        apply inv_create_snapshot _ now (Nat.le_refl now) _ _ _ _
          (by decide) (by decide)
        refine inv_of_core_eq (inv_mono_time inv ht) rfl rfl
          (fun k => activeKey_setActive _ sid _ k) ?_
        intro p hp
        rcases mem_setActive hp with hold | hnew
        · exact inv.paired p hold
        · subst hnew
          exact inv.paired (sid, m) (lookupActive_mem hl)

lemma inv_restore {s : State} {t : Nat} (inv : Inv s t) (sid qsid : String)
    (qts now : Nat) (ht : t ≤ now) :
    Inv (restore_snapshot s sid qsid qts now).1 now := by
  unfold restore_snapshot
  cases hf : s.snapshots.find? (fun r =>
      r.session_id == qsid && r.ts == qts && r.session_id == sid) with
  | none => exact inv_mono_time inv ht
  | some row =>
    dsimp only []
    cases hl : lookupActive s sid with
    | none => exact inv_mono_time inv ht
    | some m =>
      dsimp only []
      apply inv_create_snapshot _ now (Nat.le_refl now) _ _ _ _
        (by decide) (by decide)
      refine inv_of_core_eq (inv_mono_time inv ht) rfl rfl
        (fun k => activeKey_setActive _ sid _ k) ?_
      intro p hp
      rcases mem_setActive hp with hold | hnew
      · exact inv.paired p hold
      · subst hnew
        constructor
        · intro hdt
          obtain ⟨u, hu⟩ := hdt
          exact absurd hu (by simp [applyRestored])
        · intro hr
          obtain ⟨xs, hx⟩ := hr
          exact absurd hx (by simp [applyRestored])

lemma resolveMappedKey (s : State) (cid : String) (now : Nat) (k : String) :
    (s.active.map (fun p =>
      match flipFirst p.2.bug_fixes cid now with
      | some bl => (p.1, { p.2 with bug_fixes := bl })
      | none => p)).any (fun p => p.1 == k) = activeKey s k := by
  unfold activeKey
  rw [List.any_map]
  apply any_congr_mem
  intro p hp
  cases hfl : flipFirst p.2.bug_fixes cid now <;>
    simp [Function.comp, hfl]

lemma resolveMappedPaired {s : State} {t : Nat} (inv : Inv s t)
    (cid : String) (now : Nat) :
    ∀ p ∈ s.active.map (fun p =>
      match flipFirst p.2.bug_fixes cid now with
      | some bl => (p.1, { p.2 with bug_fixes := bl })
      | none => p), pairedMem p.2 := by
  intro p hp
  simp only [List.mem_map] at hp
  obtain ⟨q, hq, hfq⟩ := hp
  cases hfl : flipFirst q.2.bug_fixes cid now with
  | some bl =>
    rw [hfl] at hfq
    cases hfq
    exact inv.paired q hq
  | none =>
    rw [hfl] at hfq
    cases hfq
    exact inv.paired q hq

lemma inv_resolve {s : State} {t : Nat} (inv : Inv s t) (cid sol : String)
    (lessons : List String) (now : Nat) (ht : t ≤ now) :
    Inv (resolve_bug_fix_context s cid sol lessons now).1 now := by
  unfold resolve_bug_fix_context
  dsimp only []
  cases hfound : (s.active.filterMap (fun p =>
      (flipFirst p.2.bug_fixes cid now).map (fun bl =>
        (p.1, { p.2 with bug_fixes := bl })))).getLast? with
  | none =>
    exact inv_of_core_eq (inv_mono_time inv ht) rfl rfl
      (fun k => resolveMappedKey s cid now k)
      (resolveMappedPaired inv cid now)
  | some q =>
    dsimp only []
    cases h2 : serSession q.2 [] with
    | error e =>
      exact inv_of_core_eq (inv_mono_time inv ht) rfl rfl
        (fun k => resolveMappedKey s cid now k)
        (resolveMappedPaired inv cid now)
    | ok blob =>
      dsimp only []
      apply inv_create_snapshot _ now (Nat.le_refl now) _ _ _ _
        (by decide) (by decide)
      exact inv_of_core_eq (inv_mono_time inv ht) rfl rfl
        (fun k => resolveMappedKey s cid now k)
        (resolveMappedPaired inv cid now)

lemma inv_create_session {s : State} {t : Nat} (inv : Inv s t)
    (pid tech stype : String) (prev : Option String) (ctx : Doc) (now : Nat)
    (ht : t ≤ now) :
    Inv (create_session s pid tech stype prev ctx now).1 now := by
  by_cases hex : sessionExists s (generate_session_id pid tech now) = true
  · unfold create_session
    dsimp only []
    rw [if_pos hex]
    exact inv_mono_time inv ht
  · have hex2 : sessionExists s (generate_session_id pid tech now) = false := by
      simpa using hex
    have hsessne : ∀ r ∈ s.sessions,
        r.session_id ≠ generate_session_id pid tech now := by
      unfold sessionExists at hex2
      rw [List.any_eq_false] at hex2
      intro r hr
      simpa using hex2 r hr
    have ha : s.active.any
        (fun p => p.1 == generate_session_id pid tech now) = false := by
      by_cases hk : activeKey s (generate_session_id pid tech now) = true
      · obtain ⟨row, hrow, hid, _⟩ := (inv.activeIff _).mp hk
        exact absurd hid (hsessne row hrow)
      · cases hab : activeKey s (generate_session_id pid tech now) with
        | false => exact hab
        | true => exact absurd hab hk
    have hsn : s.snapshots.any
        (fun r => r.session_id == generate_session_id pid tech now)
        = false := by
      rw [List.any_eq_false]
      intro r hr
      by_cases hb : (r.session_id == generate_session_id pid tech now) = true
      · exfalso
        have hre : r.session_id = generate_session_id pid tech now := by
          simpa using hb
        have how := inv.snapOwned r hr
        rw [hre, hex2] at how
        exact absurd how (by decide)
      · simpa using hb
    have hemp : snapsOf s.snapshots (generate_session_id pid tech now)
        = [] := by
      unfold snapsOf
      rw [List.filter_eq_nil_iff]
      intro r hr
      rw [List.any_eq_false] at hsn
      simpa using hsn r hr
    have hemp2 : snapsOf s.snapshots
        (newRow pid tech stype ctx now).session_id = [] := hemp
    have hb0 : ((initialSnapRow pid tech stype ctx now).session_id
        == (newRow pid tech stype ctx now).session_id) = true := by
      exact beq_self_eq_true (generate_session_id pid tech now)
    obtain ⟨m1, m2, m3, m4, m5, m6⟩ :=
      create_session_fresh s pid tech stype prev ctx now hex2 ha hsn
    refine ⟨?_, ?_, ?_, ?_, ?_, ?_, ?_, ?_, ?_, ?_, ?_⟩
    · rw [m2, List.map_append]
      refine List.Nodup.append inv.nodupSess (List.nodup_singleton _) ?_
      intro a haa hab
      rw [List.mem_map] at haa
      obtain ⟨r, hr, hra⟩ := haa
      simp only [List.map_cons, List.map_nil, List.mem_singleton] at hab
      have hnr : (newRow pid tech stype ctx now).session_id
          = generate_session_id pid tech now := rfl
      exact hsessne r hr ((hra.trans hab).trans hnr)
    · intro r hr
      rw [m3] at hr
      show sessionExists _ r.session_id = true
      unfold sessionExists
      rw [m2, List.any_append]
      rcases List.mem_append.mp hr with hin | hin
      · have hx := inv.snapOwned r hin
        unfold sessionExists at hx
        simp [hx]
      · rw [List.mem_singleton] at hin
        subst hin
        simp [newRow, initialSnapRow]
    · intro r hr
      rw [m3] at hr
      rcases List.mem_append.mp hr with hin | hin
      · exact le_trans (inv.timeBound r hin) ht
      · rw [List.mem_singleton] at hin
        subst hin
        exact Nat.le_refl now
    · intro row hrow
      rw [m2] at hrow
      rcases List.mem_append.mp hrow with hin | hin
      · exact inv.statusVals row hin
      · rw [List.mem_singleton] at hin
        subst hin
        exact Or.inl rfl
    · intro k
      constructor
      · intro hk
        unfold activeKey at hk
        rw [m4, List.any_append, Bool.or_eq_true] at hk
        rcases hk with h | h
        · obtain ⟨row, hrow, hid, hst⟩ := (inv.activeIff k).mp h
          exact ⟨row, by rw [m2]; exact List.mem_append_left _ hrow, hid, hst⟩
        · have hgk : generate_session_id pid tech now = k := by simpa using h
          refine ⟨newRow pid tech stype ctx now, ?_, hgk, rfl⟩
          rw [m2]
          exact List.mem_append_right _ (List.mem_singleton_self _)
      · rintro ⟨row, hrow, hid, hst⟩
        rw [m2] at hrow
        unfold activeKey
        rw [m4, List.any_append, Bool.or_eq_true]
        rcases List.mem_append.mp hrow with hin | hin
        · left
          exact (inv.activeIff k).mpr ⟨row, hin, hid, hst⟩
        · right
          rw [List.mem_singleton] at hin
          subst hin
          have hgk : generate_session_id pid tech now = k := hid
          simp [hgk]
    · intro p hp
      rw [m4] at hp
      rcases List.mem_append.mp hp with hin | hin
      · exact inv.paired p hin
      · rw [List.mem_singleton] at hin
        subst hin
        exact ⟨fun _ => ⟨_, rfl⟩, fun _ => ⟨now, rfl⟩⟩
    · intro row2 hrow2
      rw [m2] at hrow2
      show (snapsOf _ row2.session_id).head?.map (fun r => r.stype)
        = some "initial"
      rw [m3, snapsOf_append]
      rcases List.mem_append.mp hrow2 with hin | hin
      · by_cases hc : ((initialSnapRow pid tech stype ctx now).session_id
            == row2.session_id) = true
        · exfalso
          have hge : generate_session_id pid tech now = row2.session_id := by
            simpa using hc
          exact hsessne row2 hin hge.symm
        · rw [if_neg hc, List.append_nil]
          exact inv.headInitial row2 hin
      · rw [List.mem_singleton] at hin
        subst hin
        rw [if_pos hb0, hemp2, List.nil_append]
        rfl
    · intro row2 hrow2
      rw [m2] at hrow2
      show countType (snapsOf _ row2.session_id) "initial" = 1
      rw [m3, snapsOf_append]
      rcases List.mem_append.mp hrow2 with hin | hin
      · by_cases hc : ((initialSnapRow pid tech stype ctx now).session_id
            == row2.session_id) = true
        · exfalso
          have hge : generate_session_id pid tech now = row2.session_id := by
            simpa using hc
          exact hsessne row2 hin hge.symm
        · rw [if_neg hc, List.append_nil]
          exact inv.oneInitial row2 hin
      · rw [List.mem_singleton] at hin
        subst hin
        rw [if_pos hb0, hemp2, List.nil_append]
        simp [countType, List.filter_singleton, initialSnapRow]
    · intro row2 hrow2
      rw [m2] at hrow2
      show timesMono (snapsOf _ row2.session_id)
      rw [m3, snapsOf_append]
      rcases List.mem_append.mp hrow2 with hin | hin
      · by_cases hc : ((initialSnapRow pid tech stype ctx now).session_id
            == row2.session_id) = true
        · exfalso
          have hge : generate_session_id pid tech now = row2.session_id := by
            simpa using hc
          exact hsessne row2 hin hge.symm
        · rw [if_neg hc, List.append_nil]
          exact inv.mono row2 hin
      · rw [List.mem_singleton] at hin
        subst hin
        rw [if_pos hb0, hemp2, List.nil_append]
        exact List.chain'_singleton _
    · intro row2 hrow2 hcomp
      rw [m2] at hrow2
      rcases List.mem_append.mp hrow2 with hin | hin
      · rw [m3, snapsOf_append]
        by_cases hc : ((initialSnapRow pid tech stype ctx now).session_id
            == row2.session_id) = true
        · exfalso
          have hge : generate_session_id pid tech now = row2.session_id := by
            simpa using hc
          exact hsessne row2 hin hge.symm
        · rw [if_neg hc, List.append_nil]
          exact inv.finalCompleted row2 hin hcomp
      · rw [List.mem_singleton] at hin
        subst hin
        simp [newRow] at hcomp
    · intro row2 hrow2 hnc
      rw [m2] at hrow2
      rw [m3, snapsOf_append]
      rcases List.mem_append.mp hrow2 with hin | hin
      · by_cases hc : ((initialSnapRow pid tech stype ctx now).session_id
            == row2.session_id) = true
        · exfalso
          have hge : generate_session_id pid tech now = row2.session_id := by
            simpa using hc
          exact hsessne row2 hin hge.symm
        · rw [if_neg hc, List.append_nil]
          exact inv.noFinalActive row2 hin hnc
      · rw [List.mem_singleton] at hin
        subst hin
        rw [if_pos hb0, hemp2, List.nil_append]
        simp [countType, List.filter_singleton, initialSnapRow]

lemma map_congr_fun {α β : Type} {f g : α → β} (l : List α)
    (h : ∀ a ∈ l, f a = g a) : l.map f = l.map g := by
  induction l with
  | nil => rfl
  | cons a u ih =>
    simp [h a (by simp), ih (fun b hb => h b (by simp [hb]))]

lemma find?_set_list (l : List (String × SessionMem)) (sid : String)
    (m2 : SessionMem)
    (h : (l.find? (fun p => p.1 == sid)).isSome = true) :
    (l.map (fun p => if p.1 == sid then (sid, m2) else p)).find?
      (fun p => p.1 == sid) = some (sid, m2) := by
  induction l with
  | nil => simp at h
  | cons a u ih =>
    by_cases hb : (a.1 == sid) = true
    · rw [List.map_cons, if_pos hb]
      exact List.find?_cons_of_pos _ (by simp)
    · rw [List.map_cons, if_neg hb]
      rw [@List.find?_cons_of_neg _ (fun p => p.1 == sid) a u hb] at h
      rw [@List.find?_cons_of_neg _ (fun p => p.1 == sid) a
        (u.map (fun p => if p.1 == sid then (sid, m2) else p)) hb]
      exact ih h

/-- Python dict assignment on a present key followed by lookup of that
key. -/
lemma lookupActive_setActive_self {s : State} {sid : String}
    {m m2 : SessionMem} (h : lookupActive s sid = some m) :
    lookupActive (setActive s sid m2) sid = some m2 := by
  unfold lookupActive at h ⊢
  unfold setActive
  dsimp only []
  have hs : (s.active.find? (fun p => p.1 == sid)).isSome = true := by
    cases hf : s.active.find? (fun p => p.1 == sid)
    · rw [hf] at h
      simp at h
    · simp
  rw [find?_set_list s.active sid m2 hs]
  rfl

/-- The row update `end_session` performs on the sessions table. -/
def endUpd (sid : String) (now : Nat) (dump : StoredDoc)
    (rw : SessionRow) : SessionRow :=
  if rw.session_id == sid then
    { rw with
        end_time := some now
        status := "completed"
        context_data := .dump dump }
  else rw

/-- The successful tail of `end_session`, as one state transformation:
the unique active row of `sid` is marked completed, the one `final`
snapshot row is appended, analytics rows are written and the session
leaves the dict.  This preserves the invariant. -/
lemma inv_end_core {s : State} {t : Nat} (inv : Inv s t) (now : Nat)
    (ht : t ≤ now) (sid : String) (m mF : SessionMem) (rowF : SnapshotRow)
    (dump : StoredDoc) (bg : List BugRow) (br : List BridgeRow)
    (ana : List AnalyticsRow)
    (hl : lookupActive s sid = some m)
    (hrowsid : rowF.session_id = sid) (hrowts : rowF.ts = now)
    (hrowty : rowF.stype = "final") (hFpair : pairedMem mF) :
    Inv { sessions := s.sessions.map (endUpd sid now dump),
          snapshots := s.snapshots ++ [rowF],
          bug_rows := bg, bridges := br, analytics := ana,
          active := (setActive s sid mF).active.filter
            (fun p => !(p.1 == sid)) } now := by
  have hkey := activeKey_of_lookup hl
  obtain ⟨srow, hsrow, hsid0, hact⟩ := (inv.activeIff sid).mp hkey
  have hactne : srow.status ≠ "completed" := by
    rw [hact]
    decide
  have hnotfin : countType (snapsOf s.snapshots sid) "final" = 0 := by
    have h0 := inv.noFinalActive srow hsrow hactne
    rw [hsid0] at h0
    exact h0
  have hidmap : ∀ r : SessionRow,
      (endUpd sid now dump r).session_id = r.session_id := by
    intro r
    unfold endUpd
    by_cases hb : (r.session_id == sid) = true
    · simp [hb]
    · simp [hb]
  have countF1 : countType [rowF] "final" = 1 := by
    simp [countType, List.filter_singleton, hrowty]
  have countI0 : countType [rowF] "initial" = 0 := by
    simp [countType, List.filter_singleton, hrowty]
  have hak_sid : ((setActive s sid mF).active.filter
      (fun p => !(p.1 == sid))).any (fun p => p.1 == sid) = false := by
    rw [List.any_filter, List.any_eq_false]
    intro p hp
    by_cases hb : (p.1 == sid) = true
    · simp [hb]
    · simp [hb]
  have hak_ne : ∀ k, ¬ k = sid →
      ((setActive s sid mF).active.filter
        (fun p => !(p.1 == sid))).any (fun p => p.1 == k)
      = activeKey s k := by
    intro k hk
    unfold setActive activeKey
    dsimp only []
    rw [List.any_filter, List.any_map]
    apply any_congr_mem
    intro p hp
    simp only [Function.comp]
    by_cases hb : (p.1 == sid) = true
    · rw [if_pos hb]
      have hp1 : p.1 = sid := by simpa using hb
      have hsk : (sid == k) = false := by
        rw [beq_eq_false_iff_ne]
        exact fun h => hk h.symm
      simp [hp1, hsk]
    · rw [if_neg hb]
      simp [hb]
  refine ⟨?_, ?_, ?_, ?_, ?_, ?_, ?_, ?_, ?_, ?_, ?_⟩
  · rw [List.map_map]
    show (s.sessions.map (fun r => (endUpd sid now dump r).session_id)).Nodup
    rw [map_congr_fun s.sessions (fun a _ => hidmap a)]
    exact inv.nodupSess
  · intro r hr
    show (s.sessions.map (endUpd sid now dump)).any
      (fun row => row.session_id == r.session_id) = true
    rw [List.any_map]
    rw [any_congr_mem (fun a _ => by
      simp only [Function.comp]
      rw [hidmap a])]
    rcases List.mem_append.mp hr with hin | hin
    · exact inv.snapOwned r hin
    · rw [List.mem_singleton] at hin
      subst hin
      rw [List.any_eq_true]
      exact ⟨srow, hsrow, by simp [hsid0, hrowsid]⟩
  · intro r hr
    rcases List.mem_append.mp hr with hin | hin
    · exact le_trans (inv.timeBound r hin) ht
    · rw [List.mem_singleton] at hin
      subst hin
      exact le_of_eq hrowts
  · intro row2 hrow2
    obtain ⟨r, hr, hf⟩ := List.mem_map.mp hrow2
    unfold endUpd at hf
    by_cases hb : (r.session_id == sid) = true
    · rw [if_pos hb] at hf
      subst hf
      exact Or.inr rfl
    · rw [if_neg hb] at hf
      subst hf
      exact inv.statusVals r hr
  · intro k
    by_cases hk : k = sid
    · subst hk
      constructor
      · intro hak
        have hx : ((setActive s k mF).active.filter
            (fun p => !(p.1 == k))).any (fun p => p.1 == k) = true := hak
        rw [hak_sid] at hx
        exact absurd hx (by decide)
      · rintro ⟨row2, hrow2, hid2, hst2⟩
        exfalso
        obtain ⟨r, hr, hf⟩ := List.mem_map.mp hrow2
        unfold endUpd at hf
        by_cases hb : (r.session_id == k) = true
        · rw [if_pos hb] at hf
          subst hf
          simp at hst2
        · rw [if_neg hb] at hf
          subst hf
          exact hb (by simp [hid2])
    · constructor
      · intro hak
        have hak2 : activeKey s k = true := by
          rw [← hak_ne k hk]
          exact hak
        obtain ⟨row2, hrow2, hid2, hst2⟩ := (inv.activeIff k).mp hak2
        have hbne : (row2.session_id == sid) = false := by
          rw [beq_eq_false_iff_ne, hid2]
          exact hk
        refine ⟨endUpd sid now dump row2, List.mem_map_of_mem _ hrow2,
          ?_, ?_⟩
        · rw [hidmap row2]
          exact hid2
        · unfold endUpd
          rw [if_neg (by simp [hbne])]
          exact hst2
      · rintro ⟨row2, hrow2, hid2, hst2⟩
        obtain ⟨r, hr, hf⟩ := List.mem_map.mp hrow2
        unfold endUpd at hf
        by_cases hb : (r.session_id == sid) = true
        · rw [if_pos hb] at hf
          subst hf
          simp at hst2
        · rw [if_neg hb] at hf
          subst hf
          have hx : activeKey s k = true :=
            (inv.activeIff k).mpr ⟨r, hr, hid2, hst2⟩
          rw [← hak_ne k hk] at hx
          exact hx
  · intro p hp
    have hp2 := List.mem_of_mem_filter hp
    rcases mem_setActive hp2 with hold | hnew
    · exact inv.paired p hold
    · subst hnew
      exact hFpair
  · intro row2 hrow2
    obtain ⟨r, hr, hf⟩ := List.mem_map.mp hrow2
    have hsame : row2.session_id = r.session_id := by
      rw [← hf]
      exact hidmap r
    show (snapsOf (s.snapshots ++ [rowF]) row2.session_id).head?.map
      (fun x => x.stype) = some "initial"
    rw [hsame, snapsOf_append]
    by_cases hc : (rowF.session_id == r.session_id) = true
    · rw [if_pos hc]
      rw [head?_append_left _
        (ne_nil_of_countType_one (inv.oneInitial r hr))]
      exact inv.headInitial r hr
    · rw [if_neg hc, List.append_nil]
      exact inv.headInitial r hr
  · intro row2 hrow2
    obtain ⟨r, hr, hf⟩ := List.mem_map.mp hrow2
    have hsame : row2.session_id = r.session_id := by
      rw [← hf]
      exact hidmap r
    show countType (snapsOf (s.snapshots ++ [rowF]) row2.session_id)
      "initial" = 1
    rw [hsame, snapsOf_append]
    by_cases hc : (rowF.session_id == r.session_id) = true
    · rw [if_pos hc, countType_append, countI0, inv.oneInitial r hr]
    · rw [if_neg hc, List.append_nil]
      exact inv.oneInitial r hr
  · intro row2 hrow2
    obtain ⟨r, hr, hf⟩ := List.mem_map.mp hrow2
    have hsame : row2.session_id = r.session_id := by
      rw [← hf]
      exact hidmap r
    show timesMono (snapsOf (s.snapshots ++ [rowF]) row2.session_id)
    rw [hsame, snapsOf_append]
    by_cases hc : (rowF.session_id == r.session_id) = true
    · rw [if_pos hc]
      unfold timesMono
      rw [List.chain'_append]
      refine ⟨inv.mono r hr, List.chain'_singleton _, ?_⟩
      intro x hx y hy
      simp only [List.head?_cons, Option.mem_def, Option.some.injEq] at hy
      subst hy
      have hxm : x ∈ s.snapshots :=
        List.mem_of_mem_filter (mem_of_getLast?_mem hx)
      rw [hrowts]
      exact le_trans (inv.timeBound x hxm) ht
    · rw [if_neg hc, List.append_nil]
      exact inv.mono r hr
  · intro row2 hrow2 hcomp
    obtain ⟨r, hr, hf⟩ := List.mem_map.mp hrow2
    have hsame : row2.session_id = r.session_id := by
      rw [← hf]
      exact hidmap r
    rw [hsame, snapsOf_append]
    by_cases hb : (r.session_id == sid) = true
    · have hrs : r.session_id = sid := by simpa using hb
      have hcpos : (rowF.session_id == r.session_id) = true := by
        simp [hrowsid, hrs]
      rw [if_pos hcpos]
      constructor
      · have h0 : countType (snapsOf s.snapshots r.session_id) "final"
            = 0 := by
          rw [hrs]
          exact hnotfin
        rw [countType_append, h0, countF1]
      · rw [List.getLast?_concat]
        simp [hrowty]
    · unfold endUpd at hf
      rw [if_neg hb] at hf
      subst hf
      have hcneg : (rowF.session_id == r.session_id) = false := by
        rw [beq_eq_false_iff_ne, hrowsid]
        intro h
        exact hb (by rw [← h]; simp)
      simp only [hcneg, Bool.false_eq_true, if_false, List.append_nil]
      exact inv.finalCompleted r hr hcomp
  · intro row2 hrow2 hnc
    obtain ⟨r, hr, hf⟩ := List.mem_map.mp hrow2
    have hsame : row2.session_id = r.session_id := by
      rw [← hf]
      exact hidmap r
    by_cases hb : (r.session_id == sid) = true
    · exfalso
      apply hnc
      rw [← hf]
      unfold endUpd
      rw [if_pos hb]
    · unfold endUpd at hf
      rw [if_neg hb] at hf
      subst hf
      rw [snapsOf_append]
      have hcneg : (rowF.session_id == r.session_id) = false := by
        rw [beq_eq_false_iff_ne, hrowsid]
        intro h
        exact hb (by rw [← h]; simp)
      simp only [hcneg, Bool.false_eq_true, if_false, List.append_nil]
      exact inv.noFinalActive r hr hnc

lemma inv_end_session {s : State} {t : Nat} (inv : Inv s t)
    (sid summary : String) (now : Nat) (ht : t ≤ now) :
    Inv (end_session s sid summary now).1 now := by
  unfold end_session
  cases hl : lookupActive s sid with
  | none => exact inv_mono_time inv ht
  | some m =>
    dsimp only []
    cases h2 : calculate_session_metrics now m with
    | error e => exact inv_mono_time inv ht
    | ok mets =>
      dsimp only []
      have hdt : ∃ st, m.start_time = TimeVal.dt st := by
        unfold calculate_session_metrics at h2
        cases hst : m.start_time with
        | str s0 =>
          rw [hst] at h2
          exact absurd h2 (by simp)
        | dt st => exact ⟨st, rfl⟩
      have hpm := inv.paired (sid, m) (lookupActive_mem hl)
      obtain ⟨xs, hring⟩ := hpm.mp hdt
      cases h3 : (create_snapshot s sid "final"
          ("Session ended: " ++ summary) [] now).2 with
      | error e =>
        dsimp only []
        rcases create_snapshot_cases s sid "final"
            ("Session ended: " ++ summary) [] now with
          ⟨heq, _⟩ | ⟨m2, blob, hl2, hser2, hsx2, hbr⟩
        · rw [heq]
          exact inv_mono_time inv ht
        · rw [hl] at hl2
          cases hl2
          rcases hbr with ⟨s0, hstr, _⟩ | ⟨xs2, _, heq2⟩
          · rw [hring] at hstr
            exact absurd hstr (by simp)
          · rw [heq2] at h3
            exact absurd h3 (by simp)
      | ok v =>
        dsimp only []
        rcases create_snapshot_cases s sid "final"
            ("Session ended: " ++ summary) [] now with
          ⟨heq, e, herr⟩ | ⟨m2, blob, hl2, hser2, hsx2, hbr⟩
        · rw [herr] at h3
          exact absurd h3 (by simp)
        · rw [hl] at hl2
          cases hl2
          rcases hbr with ⟨s0, hstr, _⟩ | ⟨xs2, hring2, heq⟩
          · rw [hring] at hstr
            exact absurd hstr (by simp)
          · rw [heq]
            dsimp only []
            have hlX : lookupActive { s with snapshots := s.snapshots ++
                [snapRowOf sid now "final"
                  ("Session ended: " ++ summary) blob] } sid
                = some m := hl
            rw [lookupActive_setActive_self hlX]
            dsimp only []
            have hnl : hasLive m.bug_fixes = false := by
              unfold serSession at hser2
              by_cases hlv : hasLive m.bug_fixes = true
              · rw [if_pos hlv] at hser2
                exact absurd hser2 (by simp)
              · simpa using hlv
            have hserOk : ∃ d, serSession { m with
                snapshots := SnapsVal.ring (ringPush xs2
                  (snapRefOf sid now "final"
                    ("Session ended: " ++ summary))) } []
                = Except.ok d := by
              unfold serSession
              dsimp only []
              rw [hnl]
              exact ⟨_, rfl⟩
            obtain ⟨dump, hserOk⟩ := hserOk
            rw [hserOk]
            dsimp only []
            obtain ⟨st, hst⟩ := hdt
            rw [hst]
            dsimp only []
            exact inv_end_core inv now ht sid m _ _ dump _ _ _ hl rfl rfl rfl
              ⟨fun _ => ⟨_, rfl⟩, fun _ => ⟨st, rfl⟩⟩

/-- Every operation of a tame trace preserves the lifecycle invariant. -/
lemma inv_applyOp (op : Op) (now : Nat) {s : State} {t : Nat} (inv : Inv s t)
    (hw : tameSnapTypes op) (ht : t ≤ now) :
    Inv (applyOp op now s).1 now := by
  cases op with
  | opCreateSession pid tech stype prev ctx =>
    exact inv_create_session inv pid tech stype prev ctx now ht
  | opCreateSnapshot sid stype desc overlay =>
    exact inv_create_snapshot inv now ht sid stype desc overlay hw.1 hw.2
  | opStartBugFix sid desc overlay =>
    exact inv_start_bug_fix inv sid desc overlay now ht
  | opLogAttempt cid desc changes outcome =>
    exact inv_log_attempt inv cid desc changes outcome now ht
  | opResolveBugFix cid sol lessons =>
    exact inv_resolve inv cid sol lessons now ht
  | opRestoreSnapshot sid qsid qts =>
    exact inv_restore inv sid qsid qts now ht
  | opEndSession sid summary =>
    exact inv_end_session inv sid summary now ht

/-- The lifecycle invariant holds in every state reachable by a tame
trace. -/
lemma reach_inv {s : State} {t : Nat} (h : Reach tameSnapTypes s t) :
    Inv s t := by
  induction h with
  | init t => exact inv_init t
  | step op now hr hw hle ih => exact inv_applyOp op now ih hw hle

/-- C2 (amended): in every state reachable by a trace whose externally
requested snapshot types avoid the two lifecycle-reserved names `initial`
and `final`, every session's persisted snapshot sequence has non-decreasing
timestamps and contains exactly one `initial` snapshot, which sits first;
and every session completed via `end_session` carries exactly one `final`
snapshot, which sits last.  Without that restriction the property fails,
because `create_snapshot` accepts the reserved type names from outside:
see `two_initial_snapshots`. -/
theorem snapshot_lifecycle_invariant (s : State) (t : Nat)
    (h : Reach tameSnapTypes s t) (row : SessionRow)
    (hrow : row ∈ s.sessions) :
    timesMono (snapsOf s.snapshots row.session_id) ∧
    countType (snapsOf s.snapshots row.session_id) "initial" = 1 ∧
    (snapsOf s.snapshots row.session_id).head?.map (fun r => r.stype)
      = some "initial" ∧
    (row.status = "completed" →
      countType (snapsOf s.snapshots row.session_id) "final" = 1 ∧
      (snapsOf s.snapshots row.session_id).getLast?.map (fun r => r.stype)
        = some "final") := by
  have inv := reach_inv h
  exact ⟨inv.mono row hrow, inv.oneInitial row hrow,
    inv.headInitial row hrow, fun hc => inv.finalCompleted row hrow hc⟩

/-- The one session row of the two-operation trace `exS2`. -/
def exRow : SessionRow :=
  exS2.sessions.headD
    { session_id := "", project_id := "", technology := "",
      session_type := "", start_time := 0, end_time := none,
      status := "", context_data := .doc [] }

/-- Witness for C2 (amended): the session created at second 0 and ended at
second 1 carries its `initial` snapshot first and its `final` snapshot
last, with non-decreasing timestamps. -/
theorem snapshot_lifecycle_invariant_witness :
    exRow ∈ exS2.sessions ∧
    (timesMono (snapsOf exS2.snapshots exRow.session_id) ∧
     countType (snapsOf exS2.snapshots exRow.session_id) "initial" = 1 ∧
     (snapsOf exS2.snapshots exRow.session_id).head?.map (fun r => r.stype)
       = some "initial" ∧
     (exRow.status = "completed" →
       countType (snapsOf exS2.snapshots exRow.session_id) "final" = 1 ∧
       (snapsOf exS2.snapshots exRow.session_id).getLast?.map
         (fun r => r.stype) = some "final")) :=
  ⟨by decide,
   snapshot_lifecycle_invariant exS2 1
     (Reach.step (.opEndSession exSid "done") 1
       (Reach.step (.opCreateSession "p" "t" "development" none []) 0
         (Reach.init 0) trivial (Nat.le_refl 0))
       trivial (Nat.zero_le 1))
     exRow (by decide)⟩
